import Mathlib

/-!
# Viewer input binding router (`LLViewerInput`)

The declarations of `indra/newview/llviewerinput.h` (binding records, the mode
enumeration, the mouse state enumeration and the members of `LLViewerInput`)
are embedded as they are declared.  The member function bodies live in
`llviewerinput.cpp`, which is not part of the sources at hand; every function
body below is therefore modelled from the specification of the input binding
router and says so in its documentation.
-/

namespace LLViewerInputModel

/-- Key code (`KEY`). -/
abbrev KEY := Nat

/-- Modifier mask (`MASK`). -/
abbrev MASK := Nat

/-- Mouse click type (`EMouseClickType`), used as an index into `mMouseLevel`. -/
abbrev EMouseClickType := Nat

/-- The empty modifier mask; a binding stored with it is the zero-mask
("any modifier", ignore-additional-masks) entry of the specification. -/
def MASK_NONE : MASK := 0

/-- Version constant `keybindings_xml_version` of llviewerinput.h. -/
def keybindings_xml_version : Nat := 1

/-- Modelled from the spec: the resolved action handle `LLKeyFunc` (its type is
declared outside the sources at hand).  An action declares whether it triggers
on every repeat or only on the first press, and whether it has interest in
key-up. -/
structure LLKeyFunc where
  mOnRepeat : Bool
  mOnKeyUp : Bool
deriving DecidableEq, Repr

/-- Class `LLKeyboardBinding` of llviewerinput.h. -/
structure LLKeyboardBinding where
  mKey : KEY
  mMask : MASK
  mFunction : LLKeyFunc
  mFunctionName : String
deriving DecidableEq, Repr

/-- Class `LLMouseBinding` of llviewerinput.h. -/
structure LLMouseBinding where
  mMouse : EMouseClickType
  mMask : MASK
  mFunction : LLKeyFunc
  mFunctionName : String
deriving DecidableEq, Repr

/-- Enumeration `EKeyboardMode` of llviewerinput.h (without the `MODE_COUNT` end marker). -/
inductive EKeyboardMode where
  | MODE_FIRST_PERSON
  | MODE_THIRD_PERSON
  | MODE_EDIT_AVATAR
  | MODE_SITTING
deriving DecidableEq, Repr

/-- Enumeration `LLViewerInput::EMouseState` of llviewerinput.h. -/
inductive EMouseState where
  | MOUSE_STATE_DOWN
  | MOUSE_STATE_CLICK
  | MOUSE_STATE_LEVEL
  | MOUSE_STATE_UP
  | MOUSE_STATE_SILENT
deriving DecidableEq, Repr

open EKeyboardMode EMouseState

/-- Data members of class `LLViewerInput` that the binding router of the
specification uses.  The per-mode C arrays are total functions on the mode;
`mMouseLevel` is the array of click states, one per click type.  The UI
book-keeping members `mKeysSkippedByUI` and `mKeyHandledByUI` play no part in
the specified router and are left out. -/
structure LLViewerInput where
  mKeyBindings : EKeyboardMode → List LLKeyboardBinding
  mMouseBindings : EKeyboardMode → List LLMouseBinding
  mLMouseDefaultHandling : EKeyboardMode → Bool
  mGlobalKeyBindings : EKeyboardMode → List LLKeyboardBinding
  mGlobalMouseBindings : EKeyboardMode → List LLMouseBinding
  mRemapKeys : EKeyboardMode → KEY → Option KEY
  mMouseLevel : List EMouseState

/-- Outcome of one handler call: the flag handed back to the caller, whether
the event counts as consumed, and the names of the actions invoked, in order. -/
structure LLHandled where
  mReturn : Bool
  mConsumed : Bool
  mInvoked : List String
deriving DecidableEq, Repr

/-- Modelled from the spec: the mask test of the table scan in
`llviewerinput.cpp` ("an entry matches if its stored mask equals the incoming
mask OR its stored mask is the special ignore-additional-masks sentinel"); the
sentinel is the zero mask. -/
def maskMatches (stored incoming : MASK) : Bool :=
  stored == incoming || stored == MASK_NONE

/-- Modelled from the spec: the entry search of the private
`LLViewerInput::scanKey`: "an entry matching (remapped key, mask) with
exact-mask priority over zero-mask".  The first entry in registration order
whose stored mask equals the incoming mask is selected; only when the table
has no such entry, the first zero-mask entry for the key is the fallback.
`key_up` restricts the search to entries that declared interest in key-up. -/
def findKeyBinding (binding : List LLKeyboardBinding) (key : KEY) (mask : MASK)
    (key_up : Bool) : Option LLKeyboardBinding :=
  match binding.find? (fun b =>
      b.mKey == key && b.mMask == mask && (!key_up || b.mFunction.mOnKeyUp)) with
  | some b => some b
  | none =>
    binding.find? (fun b =>
      b.mKey == key && b.mMask == MASK_NONE && (!key_up || b.mFunction.mOnKeyUp))

/-- Modelled from the spec: the private `LLViewerInput::scanKey` over one
table, whose body is in `llviewerinput.cpp`.  The first matching entry is
looked up; on key-down its handler is invoked when the press is not a repeat
or the action triggers on every repeat, on key-up it is invoked when found.
The result is whether a handler was invoked, and its name. -/
def scanKey (binding : List LLKeyboardBinding) (key : KEY) (mask : MASK)
    (key_down key_up repeated : Bool) : Bool × List String :=
  match findKeyBinding binding key mask key_up with
  | none => (false, [])
  | some b =>
    if key_up then (true, [b.mFunctionName])
    else if key_down && (!repeated || b.mFunction.mOnRepeat) then (true, [b.mFunctionName])
    else (false, [])

/-- Modelled from the spec: the key remap step ("applies the active mode's key
remap"): a key with a substitute in the mode's remap table is replaced by it. -/
def remapKey (s : LLViewerInput) (mode : EKeyboardMode) (key : KEY) : KEY :=
  match s.mRemapKeys mode key with
  | some k => k
  | none => key

/-- Modelled from the spec: `LLViewerInput::handleKey` (`handleKeyDown` of the
specification), body in `llviewerinput.cpp`.  The key is remapped, the regular
table of the active mode is scanned, and the event is consumed exactly when a
handler was invoked. -/
def handleKey (s : LLViewerInput) (mode : EKeyboardMode) (key : KEY) (mask : MASK)
    (repeated : Bool) : LLHandled :=
  let r := scanKey (s.mKeyBindings mode) (remapKey s mode key) mask true false repeated
  { mReturn := r.1, mConsumed := r.1, mInvoked := r.2 }

/-- Modelled from the spec: `LLViewerInput::handleGlobalBindsKeyDown`, body in
`llviewerinput.cpp` ("same lookup but against the global table; never consumes
- returns whether a match existed"). -/
def handleGlobalBindsKeyDown (s : LLViewerInput) (mode : EKeyboardMode) (key : KEY)
    (mask : MASK) : LLHandled :=
  let r := scanKey (s.mGlobalKeyBindings mode) (remapKey s mode key) mask true false false
  { mReturn := r.1, mConsumed := false, mInvoked := r.2 }

/-- Modelled from the spec: the entry search of the table overload of
`LLViewerInput::scanMouse` (body in `llviewerinput.cpp`), with the flag
`ignore_additional_masks` that llviewerinput.h declares for it.  The first
entry for the click type whose stored mask equals the incoming mask is
selected (exact-mask priority); when there is none and the flag is set, the
first zero-mask entry for the click type is the fallback; without the flag
only an exact mask matches. -/
def findMouseBinding (binding : List LLMouseBinding) (mouse : EMouseClickType)
    (mask : MASK) (ignore_additional_masks : Bool) : Option LLMouseBinding :=
  match binding.find? (fun b => b.mMouse == mouse && b.mMask == mask) with
  | some b => some b
  | none =>
    if ignore_additional_masks then
      binding.find? (fun b => b.mMouse == mouse && b.mMask == MASK_NONE)
    else none

/-- Modelled from the spec: the table overload of `LLViewerInput::scanMouse`:
the names of the actions invoked for one click in one table (none or one). -/
def scanMouseTable (binding : List LLMouseBinding) (mouse : EMouseClickType)
    (mask : MASK) (ignore_additional_masks : Bool) : List String :=
  match findMouseBinding binding mouse mask ignore_additional_masks with
  | none => []
  | some b => [b.mFunctionName]

/-- Modelled from the spec: `LLViewerInput::isMouseBindUsed`, body in
`llviewerinput.cpp`: a pure query whether the click type and mask map to a
registered regular or global action of the mode, by the lookup `scanMouse`
uses. -/
def isMouseBindUsed (s : LLViewerInput) (mouse : EMouseClickType) (mask : MASK)
    (mode : EKeyboardMode) : Bool :=
  (findMouseBinding (s.mMouseBindings mode) mouse mask true).isSome ||
    (findMouseBinding (s.mGlobalMouseBindings mode) mouse mask true).isSome

/-- Inline member `isLMouseHandlingDefault` of llviewerinput.h. -/
def isLMouseHandlingDefault (s : LLViewerInput) (mode : EKeyboardMode) : Bool :=
  s.mLMouseDefaultHandling mode

/-- Modelled from the spec: the click state recorded by `handleMouse` for a
DOWN edge (`IDLE --down--> DOWN`, `SILENT --down--> DOWN`): a DOWN is
recorded whatever the state was, a new DOWN restarts the cycle. -/
def mouseLevelOnDown : EMouseState → EMouseState
  | _ => MOUSE_STATE_DOWN

/-- Modelled from the spec: the click state recorded by `handleMouse` for an UP
edge: `DOWN --up(same tick)--> CLICK`, `LEVEL --up--> UP`, SILENT stays
SILENT ("notified about up, do not notify again"), and a pending CLICK or UP
is recorded as UP. -/
def mouseLevelOnUp : EMouseState → EMouseState
  | MOUSE_STATE_DOWN => MOUSE_STATE_CLICK
  | MOUSE_STATE_SILENT => MOUSE_STATE_SILENT
  | _ => MOUSE_STATE_UP

/-- Modelled from the spec: `LLViewerInput::handleMouse`, body in
`llviewerinput.cpp`.  It records the DOWN or UP edge in the click state of the
click type, independent of dispatch, and returns whether the raw event is to
be consumed by the binding system: the click and mask map to a registered
regular or global action, or the mode has the default-handling flag. -/
def handleMouse (s : LLViewerInput) (mode : EKeyboardMode) (mask : MASK)
    (clicktype : EMouseClickType) (down : Bool) : LLViewerInput × Bool :=
  ({ s with mMouseLevel :=
      List.modify (if down then mouseLevelOnDown else mouseLevelOnUp) clicktype s.mMouseLevel },
   isMouseBindUsed s clicktype mask mode || isLMouseHandlingDefault s mode)

/-- Modelled from the spec: the state in which `scanMouse()` dispatches a click
state, if it does: CLICK, LEVEL and UP are dispatched as they are, a DOWN still
held when the tick elapses is classified as sustained (`DOWN --tick elapses
still down--> LEVEL --dispatch(repeat)--> LEVEL`), SILENT is skipped. -/
def mouseLevelDispatch : EMouseState → Option EMouseState
  | MOUSE_STATE_DOWN => some MOUSE_STATE_LEVEL
  | MOUSE_STATE_CLICK => some MOUSE_STATE_CLICK
  | MOUSE_STATE_LEVEL => some MOUSE_STATE_LEVEL
  | MOUSE_STATE_UP => some MOUSE_STATE_UP
  | MOUSE_STATE_SILENT => none

/-- Modelled from the spec: the click state `scanMouse()` leaves behind:
`CLICK --dispatch--> IDLE`, `UP --dispatch--> SILENT`, DOWN and LEVEL stay
held as LEVEL, SILENT stays SILENT (the idle state is SILENT). -/
def mouseLevelAfterScan : EMouseState → EMouseState
  | MOUSE_STATE_DOWN => MOUSE_STATE_LEVEL
  | MOUSE_STATE_CLICK => MOUSE_STATE_SILENT
  | MOUSE_STATE_LEVEL => MOUSE_STATE_LEVEL
  | MOUSE_STATE_UP => MOUSE_STATE_SILENT
  | MOUSE_STATE_SILENT => MOUSE_STATE_SILENT

/-- One dispatch made by `scanMouse()`: the click type, the state it is
dispatched in, and the names of the actions invoked for it. -/
structure LLMouseDispatch where
  mClick : EMouseClickType
  mState : EMouseState
  mInvoked : List String
deriving DecidableEq, Repr

/-- Modelled from the spec: the overload `scanMouse(click, state)`, body in
`llviewerinput.cpp`: "performs the table lookup (global first, then regular)
and invokes the matching action"; a global match does not consume, so the
regular table is scanned as well.  Both tables are scanned with
`ignore_additional_masks` set, as the matching rule of the specification has
the zero-mask entry for clicks as for keys. -/
def scanMouseClick (s : LLViewerInput) (mode : EKeyboardMode) (mask : MASK)
    (click : EMouseClickType) (state : EMouseState) : LLMouseDispatch :=
  { mClick := click, mState := state,
    mInvoked := scanMouseTable (s.mGlobalMouseBindings mode) click mask true ++
      scanMouseTable (s.mMouseBindings mode) click mask true }

/-- Modelled from the spec: the walk of `scanMouse()` over the click states
from click type `i` on: the dispatches made, in order of click type. -/
def scanMouseFrom (s : LLViewerInput) (mode : EKeyboardMode) (mask : MASK) :
    EMouseClickType → List EMouseState → List LLMouseDispatch
  | _, [] => []
  | i, st :: rest =>
    match mouseLevelDispatch st with
    | some d => scanMouseClick s mode mask i d :: scanMouseFrom s mode mask (i + 1) rest
    | none => scanMouseFrom s mode mask (i + 1) rest

/-- Modelled from the spec: `LLViewerInput::scanMouse()`, body in
`llviewerinput.cpp`: walks all click states, dispatches every state that is
not SILENT with the modifier mask current at the tick, and moves each state
on. -/
def scanMouse (s : LLViewerInput) (mode : EKeyboardMode) (mask : MASK) :
    LLViewerInput × List LLMouseDispatch :=
  ({ s with mMouseLevel := s.mMouseLevel.map mouseLevelAfterScan },
   scanMouseFrom s mode mask 0 s.mMouseLevel)

/-- Modelled from the spec: key-binding record of the binding configuration
(key token, modifier token, action name, command target: global table or
main table). -/
structure LLKeyBindRecord where
  mKey : String
  mMask : String
  mCommand : String
  mGlobal : Bool
deriving DecidableEq, Repr

/-- Modelled from the spec: mouse-binding record of the binding configuration
(click-type token, modifier token, action name, command target). -/
structure LLMouseBindRecord where
  mMouse : String
  mMask : String
  mCommand : String
  mGlobal : Bool
deriving DecidableEq, Repr

/-- Modelled from the spec: key-remap record (mode, from-key, to-key). -/
structure LLRemapRecord where
  mMode : String
  mFrom : String
  mTo : String
deriving DecidableEq, Repr

/-- Modelled from the spec: `LLKeyBindParsing::KeyMode`, which llviewerinput.h
only forward-declares: the key and mouse records of one mode and its
left-mouse default handling flag. -/
structure KeyMode where
  mKeys : List LLKeyBindRecord
  mMouse : List LLMouseBindRecord
  mLMouseDefault : Bool
deriving DecidableEq, Repr

/-- Modelled from the spec: the parsed binding configuration: the schema
version marker, the records per mode name, and the key-remap records. -/
structure Keys where
  xml_version : Nat
  mModes : List (String × KeyMode)
  mRemaps : List LLRemapRecord
deriving DecidableEq, Repr

/-- Collaborators of the loader that are outside the sources at hand and are
taken as parameters: the token parsers (`modeFromString` and `mouseFromString`
are declared in llviewerinput.h, the key and mask parsers belong to the
keyboard library) and the action registry resolving a name to its handler. -/
structure LLBindEnv where
  keyFromString : String → Option KEY
  maskFromString : String → Option MASK
  mouseFromString : String → Option EMouseClickType
  modeFromString : String → Option EKeyboardMode
  mActions : String → Option LLKeyFunc

/-- Modelled from the spec: `LLViewerInput::resetBindings`, body in
`llviewerinput.cpp`: every per-mode table is emptied (regular and global key
and mouse tables, key remaps) and every left-mouse default flag is cleared;
the click states are not tables and stay. -/
def resetBindings (s : LLViewerInput) : LLViewerInput :=
  { mKeyBindings := fun _ => []
    mMouseBindings := fun _ => []
    mLMouseDefaultHandling := fun _ => false
    mGlobalKeyBindings := fun _ => []
    mGlobalMouseBindings := fun _ => []
    mRemapKeys := fun _ _ => none
    mMouseLevel := s.mMouseLevel }

/-- Modelled from the spec: the duplicate search of `bindKey` (body in
`llviewerinput.cpp`): the first entry with the same key and mask gets the new
action; `none` when the table has no such entry. -/
def overwriteKeyBinding (key : KEY) (mask : MASK) (f : LLKeyFunc) (name : String) :
    List LLKeyboardBinding → Option (List LLKeyboardBinding)
  | [] => none
  | b :: rest =>
    if b.mKey == key && b.mMask == mask then
      some ({ b with mFunction := f, mFunctionName := name } :: rest)
    else (overwriteKeyBinding key mask f name rest).map (fun t => b :: t)

/-- Modelled from the spec: registration of one key binding in one table by
`bindKey`: a duplicate is overwritten (last-registered wins), otherwise the
binding is appended. -/
def bindKeyTable (binding : List LLKeyboardBinding) (key : KEY) (mask : MASK)
    (f : LLKeyFunc) (name : String) : List LLKeyboardBinding :=
  match overwriteKeyBinding key mask f name binding with
  | some t => t
  | none => binding ++ [{ mKey := key, mMask := mask, mFunction := f, mFunctionName := name }]

/-- Modelled from the spec: `LLViewerInput::bindKey`, body in
`llviewerinput.cpp`.  The action name is resolved in the registry (an
unresolved name drops the binding); a duplicate (key, mask) in the target
table is overwritten, otherwise the binding is appended.  The command target
of the record selects the global or the regular table of the mode. -/
def bindKey (env : LLBindEnv) (s : LLViewerInput) (mode : EKeyboardMode) (key : KEY)
    (mask : MASK) (function_name : String) (global : Bool) : LLViewerInput × Bool :=
  match env.mActions function_name with
  | none => (s, false)
  | some f =>
    if global then
      ({ s with mGlobalKeyBindings := (Function.update s.mGlobalKeyBindings mode
          (bindKeyTable (s.mGlobalKeyBindings mode) key mask f function_name)) }, true)
    else
      ({ s with mKeyBindings := (Function.update s.mKeyBindings mode
          (bindKeyTable (s.mKeyBindings mode) key mask f function_name)) }, true)

/-- Modelled from the spec: the duplicate search of `bindMouse` (body in
`llviewerinput.cpp`), as for keys. -/
def overwriteMouseBinding (mouse : EMouseClickType) (mask : MASK) (f : LLKeyFunc)
    (name : String) : List LLMouseBinding → Option (List LLMouseBinding)
  | [] => none
  | b :: rest =>
    if b.mMouse == mouse && b.mMask == mask then
      some ({ b with mFunction := f, mFunctionName := name } :: rest)
    else (overwriteMouseBinding mouse mask f name rest).map (fun t => b :: t)

/-- Modelled from the spec: registration of one mouse binding in one table by
`bindMouse`, as for keys. -/
def bindMouseTable (binding : List LLMouseBinding) (mouse : EMouseClickType) (mask : MASK)
    (f : LLKeyFunc) (name : String) : List LLMouseBinding :=
  match overwriteMouseBinding mouse mask f name binding with
  | some t => t
  | none => binding ++ [{ mMouse := mouse, mMask := mask, mFunction := f, mFunctionName := name }]

/-- Modelled from the spec: `LLViewerInput::bindMouse`, body in
`llviewerinput.cpp`; as `bindKey`, for the mouse tables. -/
def bindMouse (env : LLBindEnv) (s : LLViewerInput) (mode : EKeyboardMode)
    (mouse : EMouseClickType) (mask : MASK) (function_name : String) (global : Bool) :
    LLViewerInput × Bool :=
  match env.mActions function_name with
  | none => (s, false)
  | some f =>
    if global then
      ({ s with mGlobalMouseBindings := (Function.update s.mGlobalMouseBindings mode
          (bindMouseTable (s.mGlobalMouseBindings mode) mouse mask f function_name)) }, true)
    else
      ({ s with mMouseBindings := (Function.update s.mMouseBindings mode
          (bindMouseTable (s.mMouseBindings mode) mouse mask f function_name)) }, true)

/-- Modelled from the spec: one key record in `loadBindingMode` (body in
`llviewerinput.cpp`): unparsable tokens and unresolved actions are skipped, a
registered binding is counted. -/
def loadKeyRecord (env : LLBindEnv) (mode : EKeyboardMode) (acc : LLViewerInput × Nat)
    (r : LLKeyBindRecord) : LLViewerInput × Nat :=
  match env.keyFromString r.mKey, env.maskFromString r.mMask with
  | some k, some m =>
    let b := bindKey env acc.1 mode k m r.mCommand r.mGlobal
    (b.1, if b.2 then acc.2 + 1 else acc.2)
  | _, _ => acc

/-- Modelled from the spec: one mouse record in `loadBindingMode`, as for
keys. -/
def loadMouseRecord (env : LLBindEnv) (mode : EKeyboardMode) (acc : LLViewerInput × Nat)
    (r : LLMouseBindRecord) : LLViewerInput × Nat :=
  match env.mouseFromString r.mMouse, env.maskFromString r.mMask with
  | some c, some m =>
    let b := bindMouse env acc.1 mode c m r.mCommand r.mGlobal
    (b.1, if b.2 then acc.2 + 1 else acc.2)
  | _, _ => acc

/-- Modelled from the spec: `LLViewerInput::loadBindingMode`, body in
`llviewerinput.cpp`: registers the key records and then the mouse records of
one mode in the order of the configuration, sets the left-mouse default flag
of the mode, and returns the number of bindings registered. -/
def loadBindingMode (env : LLBindEnv) (s : LLViewerInput) (keymode : KeyMode)
    (mode : EKeyboardMode) : LLViewerInput × Nat :=
  let a := keymode.mKeys.foldl (loadKeyRecord env mode) (s, 0)
  let b := keymode.mMouse.foldl (loadMouseRecord env mode) a
  ({ b.1 with mLMouseDefaultHandling :=
      Function.update b.1.mLMouseDefaultHandling mode keymode.mLMouseDefault }, b.2)

/-- Modelled from the spec: one mode block in `loadBindingsXML` (body in
`llviewerinput.cpp`): an unknown mode name is skipped. -/
def loadModeEntry (env : LLBindEnv) (acc : LLViewerInput × Nat) (e : String × KeyMode) :
    LLViewerInput × Nat :=
  match env.modeFromString e.1 with
  | some mode =>
    let r := loadBindingMode env acc.1 e.2 mode
    (r.1, acc.2 + r.2)
  | none => acc

/-- Modelled from the spec: one key-remap record in `loadBindingsXML`: unknown
mode or key tokens are skipped, a later record for the same key replaces an
earlier one. -/
def loadRemapRecord (env : LLBindEnv) (s : LLViewerInput) (r : LLRemapRecord) :
    LLViewerInput :=
  match env.modeFromString r.mMode, env.keyFromString r.mFrom, env.keyFromString r.mTo with
  | some mode, some a, some b =>
    { s with mRemapKeys :=
        Function.update s.mRemapKeys mode (Function.update (s.mRemapKeys mode) a (some b)) }
  | _, _, _ => s

/-- Modelled from the spec: `LLViewerInput::loadBindingsXML` (`loadBindings` of
the specification), body in `llviewerinput.cpp`.  All tables are reset before
loading; a source that could not be read (`none`) or whose version is newer
than `keybindings_xml_version` fails the whole load with result 0; otherwise
every mode block and remap record is loaded and the number of bindings
registered is returned. -/
def loadBindingsXML (env : LLBindEnv) (s : LLViewerInput) (source : Option Keys) :
    LLViewerInput × Nat :=
  let s0 := resetBindings s
  match source with
  | none => (s0, 0)
  | some keys =>
    if keys.xml_version > keybindings_xml_version then (s0, 0)
    else
      let r := keys.mModes.foldl (loadModeEntry env) (s0, 0)
      (keys.mRemaps.foldl (loadRemapRecord env) r.1, r.2)

/-- One input event of the router as far as the click states are concerned:
a raw mouse edge handed to `handleMouse`, or a tick handed to `scanMouse()`. -/
inductive LLInputEvent where
  | mouse (mode : EKeyboardMode) (mask : MASK) (clicktype : EMouseClickType) (down : Bool)
  | scan (mode : EKeyboardMode) (mask : MASK)
deriving DecidableEq, Repr

/-- The router after one input event. -/
def applyEvent (s : LLViewerInput) : LLInputEvent → LLViewerInput
  | .mouse mode mask clicktype down => (handleMouse s mode mask clicktype down).1
  | .scan mode mask => (scanMouse s mode mask).1

/-- The router after a sequence of input events. -/
def applyEvents (s : LLViewerInput) (es : List LLInputEvent) : LLViewerInput :=
  es.foldl applyEvent s

/-- The states in which one `scanMouse()` call dispatched click type `click`. -/
def dispatchedStates (click : EMouseClickType) (ds : List LLMouseDispatch) :
    List EMouseState :=
  (ds.filter (fun d => d.mClick == click)).map (fun d => d.mState)

/-- The binding a key record registers in a table with command target
`global`, if it registers one there. -/
def keyRecordBinding (env : LLBindEnv) (global : Bool) (r : LLKeyBindRecord) :
    Option LLKeyboardBinding :=
  match env.keyFromString r.mKey, env.maskFromString r.mMask, env.mActions r.mCommand with
  | some k, some m, some f =>
    if r.mGlobal == global then
      some { mKey := k, mMask := m, mFunction := f, mFunctionName := r.mCommand }
    else none
  | _, _, _ => none

/-- The key bindings a configuration registers, in order, in the regular
(`global = false`) or global table of `mode`: the key records of the blocks
whose name resolves to `mode`, with parsable tokens, a resolvable action and
that command target. -/
def keyRegistrations (env : LLBindEnv) (keys : Keys) (mode : EKeyboardMode)
    (global : Bool) : List LLKeyboardBinding :=
  (keys.mModes.filter (fun e => env.modeFromString e.1 == some mode)).flatMap (fun e =>
    e.2.mKeys.filterMap (keyRecordBinding env global))

/-- A router with empty tables and `n` idle click states, for examples. -/
def idleInput (n : Nat) : LLViewerInput :=
  { mKeyBindings := fun _ => []
    mMouseBindings := fun _ => []
    mLMouseDefaultHandling := fun _ => false
    mGlobalKeyBindings := fun _ => []
    mGlobalMouseBindings := fun _ => []
    mRemapKeys := fun _ _ => none
    mMouseLevel := List.replicate n MOUSE_STATE_SILENT }

/-- Effect of one input event on the click state of click type `click`. -/
def clickStep (click : EMouseClickType) : LLInputEvent → EMouseState → EMouseState
  | .mouse _ _ c d, a =>
    if c = click then (if d then mouseLevelOnDown a else mouseLevelOnUp a) else a
  | .scan _ _, a => mouseLevelAfterScan a

/-- Example router: first-person mode binds key 70 ('F') with the empty mask to
"fly"; every other table is empty. -/
def flyInput : LLViewerInput :=
  { idleInput 2 with
    mKeyBindings := fun m =>
      if m = MODE_FIRST_PERSON then
        [{ mKey := 70, mMask := MASK_NONE, mFunction := ⟨false, false⟩, mFunctionName := "fly" }]
      else [] }

/-- The key table of a mode selected by the command target: the global table
for `global = true`, the regular table otherwise. -/
def keyTable (s : LLViewerInput) (mode : EKeyboardMode) (global : Bool) :
    List LLKeyboardBinding :=
  if global then s.mGlobalKeyBindings mode else s.mKeyBindings mode

/-- Registration of a binding record in a table by `bindKey`. -/
def registerKey (t : List LLKeyboardBinding) (r : LLKeyboardBinding) :
    List LLKeyboardBinding :=
  bindKeyTable t r.mKey r.mMask r.mFunction r.mFunctionName

/-- Example parsers and action registry: keys "F" and "X", masks "NONE" and
"SHIFT", click "LMB", the four mode names, and the actions "fly", "jump" and
"run". -/
def exampleEnv : LLBindEnv :=
  { keyFromString := fun t => if t = "F" then some 70 else if t = "X" then some 88 else none
    maskFromString := fun t =>
      if t = "NONE" then some MASK_NONE else if t = "SHIFT" then some 1 else none
    mouseFromString := fun t => if t = "LMB" then some 0 else none
    modeFromString := fun t =>
      if t = "FIRST_PERSON" then some MODE_FIRST_PERSON
      else if t = "THIRD_PERSON" then some MODE_THIRD_PERSON
      else if t = "EDIT_AVATAR" then some MODE_EDIT_AVATAR
      else if t = "SITTING" then some MODE_SITTING
      else none
    mActions := fun t =>
      if t = "fly" ∨ t = "jump" ∨ t = "run" then some ⟨false, false⟩ else none }

/-- Example configuration: the third-person block registers "jump" and then
"run" for key "X" with mask "SHIFT" in the regular table. -/
def duplicateKeys : Keys :=
  { xml_version := 1
    mModes := [("THIRD_PERSON",
      { mKeys := [⟨"X", "SHIFT", "jump", false⟩, ⟨"X", "SHIFT", "run", false⟩]
        mMouse := []
        mLMouseDefault := false })]
    mRemaps := [] }

/-- Example configuration: the third-person block registers "fly" for key "X"
with the empty mask, and then "jump" and "run" for key "X" with mask "SHIFT",
in the regular table. -/
def wildcardDuplicateKeys : Keys :=
  { xml_version := 1
    mModes := [("THIRD_PERSON",
      { mKeys := [⟨"X", "NONE", "fly", false⟩, ⟨"X", "SHIFT", "jump", false⟩,
                  ⟨"X", "SHIFT", "run", false⟩]
        mMouse := []
        mLMouseDefault := false })]
    mRemaps := [] }

/-- The mouse table of a mode selected by the command target: the global table
for `global = true`, the regular table otherwise. -/
def mouseTable (s : LLViewerInput) (mode : EKeyboardMode) (global : Bool) :
    List LLMouseBinding :=
  if global then s.mGlobalMouseBindings mode else s.mMouseBindings mode

/-- Registration of a binding record in a table by `bindMouse`. -/
def registerMouse (t : List LLMouseBinding) (r : LLMouseBinding) : List LLMouseBinding :=
  bindMouseTable t r.mMouse r.mMask r.mFunction r.mFunctionName

/-- The binding a mouse record registers in a table with command target
`global`, if it registers one there. -/
def mouseRecordBinding (env : LLBindEnv) (global : Bool) (r : LLMouseBindRecord) :
    Option LLMouseBinding :=
  match env.mouseFromString r.mMouse, env.maskFromString r.mMask, env.mActions r.mCommand with
  | some c, some m, some f =>
    if r.mGlobal == global then
      some { mMouse := c, mMask := m, mFunction := f, mFunctionName := r.mCommand }
    else none
  | _, _, _ => none

/-- The mouse bindings a configuration registers, in order, in the regular
(`global = false`) or global table of `mode`. -/
def mouseRegistrations (env : LLBindEnv) (keys : Keys) (mode : EKeyboardMode)
    (global : Bool) : List LLMouseBinding :=
  (keys.mModes.filter (fun e => env.modeFromString e.1 == some mode)).flatMap (fun e =>
    e.2.mMouse.filterMap (mouseRecordBinding env global))

/-- A key record is well formed: its key and modifier tokens parse and its
action name resolves. -/
def keyRecordOk (env : LLBindEnv) (r : LLKeyBindRecord) : Bool :=
  (env.keyFromString r.mKey).isSome && (env.maskFromString r.mMask).isSome &&
    (env.mActions r.mCommand).isSome

/-- A mouse record is well formed: its click-type and modifier tokens parse
and its action name resolves. -/
def mouseRecordOk (env : LLBindEnv) (r : LLMouseBindRecord) : Bool :=
  (env.mouseFromString r.mMouse).isSome && (env.maskFromString r.mMask).isSome &&
    (env.mActions r.mCommand).isSome

/-- Number of well-formed key and mouse records of one mode block. -/
def blockBoundCount (env : LLBindEnv) (km : KeyMode) : Nat :=
  (km.mKeys.filter (keyRecordOk env)).length + (km.mMouse.filter (mouseRecordOk env)).length

/-- Number of entries of a configuration that are successfully bound: the
well-formed key and mouse records of the blocks whose mode name is known. -/
def boundCount (env : LLBindEnv) (keys : Keys) : Nat :=
  ((keys.mModes.filter (fun e => (env.modeFromString e.1).isSome)).map
    (fun e => blockBoundCount env e.2)).sum

/-- Example configuration with bad entries: the third-person block holds a key
record with an unparsable key token, a well-formed key record, a key record
with an unknown action and a well-formed mouse record; a block with an unknown
mode name holds a well-formed key record. -/
def mixedKeys : Keys :=
  { xml_version := 1
    mModes := [("THIRD_PERSON",
      { mKeys := [⟨"??", "NONE", "fly", false⟩, ⟨"X", "SHIFT", "jump", false⟩,
                  ⟨"F", "NONE", "teleport", false⟩]
        mMouse := [⟨"LMB", "NONE", "run", false⟩]
        mLMouseDefault := false }),
      ("FLYING",
      { mKeys := [⟨"F", "NONE", "fly", false⟩]
        mMouse := []
        mLMouseDefault := false })]
    mRemaps := [] }

/-- Value of the end marker `MODE_COUNT` of the enumeration `e_keyboard_mode`
in llviewerinput.h: the fifth enumerator, after four modes counted from 0. -/
def MODE_COUNT : Int := 4

/-- Value of a mode in the enumeration `e_keyboard_mode` of llviewerinput.h
(enumerators count from 0 in declaration order). -/
def modeIndex : EKeyboardMode → Int
  | MODE_FIRST_PERSON => 0
  | MODE_THIRD_PERSON => 1
  | MODE_EDIT_AVATAR => 2
  | MODE_SITTING => 3

/-- The slot of a per-mode array (declared `[MODE_COUNT]`) that an `S32` index
selects: the mode with that value, none when the index is outside the array. -/
def modeFromIndex (i : Int) : Option EKeyboardMode :=
  if i = 0 then some MODE_FIRST_PERSON
  else if i = 1 then some MODE_THIRD_PERSON
  else if i = 2 then some MODE_EDIT_AVATAR
  else if i = 3 then some MODE_SITTING
  else none

/-- Inline member `isLMouseHandlingDefault(const S32 mode) const` of
llviewerinput.h with its `S32` argument: `return mLMouseDefaultHandling[mode]`.
The member is `const`, the router is handed back as it was; the array read has
a result only for an index inside the array (`none` otherwise, the function
makes no check of its own). -/
def isLMouseHandlingDefaultAt (s : LLViewerInput) (mode : Int) :
    Option (LLViewerInput × Bool) :=
  match modeFromIndex mode with
  | some m => some (s, s.mLMouseDefaultHandling m)
  | none => none

end LLViewerInputModel

/-!
# Texture picker control (`LLTextureCtrl`, `LLFloaterTexturePicker`)

Embedding of the functions of `indra/newview/lltexturectrl.cpp` that set and
read the value of the control, handle a picker notification and look up the
inventory item of an asset.  Widgets, drawing and the inventory panel are
outside the embedding; what the code asks the inventory is an input.
-/

namespace LLTextureCtrlModel

/-- Identifier (`LLUUID`); the null id is the all-zero value. -/
structure LLUUID where
  mData : Nat
deriving DecidableEq, Repr

/-- The null id `LLUUID::null`. -/
def LLUUID.null : LLUUID := ⟨0⟩

/-- Test `LLUUID::isNull`. -/
def LLUUID.isNull (id : LLUUID) : Bool := id == LLUUID.null

/-- Test `LLUUID::notNull`. -/
def LLUUID.notNull (id : LLUUID) : Bool := !(id == LLUUID.null)

/-- Value type `LLSD` of the UI library (declared outside the sources at
hand), with the cases that occur here: an LLSD built from an id converts back
to that id, every other value converts to the null id. -/
inductive LLSD where
  | undefined
  | boolean (b : Bool)
  | integer (i : Int)
  | uuid (id : LLUUID)
deriving DecidableEq, Repr

/-- Conversion `LLSD::asUUID`. -/
def LLSD.asUUID : LLSD → LLUUID
  | .uuid id => id
  | _ => LLUUID.null

/-- An inventory item as `findItemID` sees it: its id, whether its
permissions allow a copy by the agent (`allowCopyBy(gAgent.getID(),
gAgent.getGroupID())`), and whether it descends from the library root folder
(`gInventory.isObjectDescendentOf(id, gInventory.getLibraryRootFolderID())`). -/
structure LLInventoryItem where
  mUUID : LLUUID
  mCopyable : Bool
  mInLibrary : Bool
deriving DecidableEq, Repr

/-- What the code asks the inventory and the appearance dictionary, as inputs:
the items whose asset id matches (the result of
`gInventory.collectDescendentsIf` with `LLAssetIDMatches`, trash included),
whether an id is a baked-texture id, and whether `gInventory.getItem(id)`
is an item the agent may not copy. -/
structure LLInventoryEnv where
  mItems : LLUUID → List LLInventoryItem
  mIsBakedImageId : LLUUID → Bool
  mItemNoCopy : LLUUID → Bool

/-- Body of `LLFloaterTexturePicker::findItemID` after the inventory query, on
the list of matching items: the first item that is copyable (and, with
`ignore_library`, not in the library); otherwise null when a copyable item
was requested, else the first item (null with `ignore_library` when that item
is in the library); null when nothing matches. -/
def findItemIDIn (items : List LLInventoryItem) (copyable_only ignore_library : Bool) :
    LLUUID :=
  if items.length ≠ 0 then
    match items.find? (fun it => it.mCopyable && (!ignore_library || !it.mInLibrary)) with
    | some it => it.mUUID
    | none =>
      if copyable_only then LLUUID.null
      else
        match items with
        | it0 :: _ => if !ignore_library || !it0.mInLibrary then it0.mUUID else LLUUID.null
        | [] => LLUUID.null
  else LLUUID.null

/-- Function `LLFloaterTexturePicker::findItemID(asset_id, copyable_only,
ignore_library)`. -/
def findItemID (env : LLInventoryEnv) (asset_id : LLUUID)
    (copyable_only ignore_library : Bool) : LLUUID :=
  findItemIDIn (env.mItems asset_id) copyable_only ignore_library

/-- Members of `LLFloaterTexturePicker` that the control reads or writes: the
selected asset id, the dirty flag of its view model, and the flags tested by
`setImageID`. -/
structure LLFloaterTexturePicker where
  mImageAssetID : LLUUID
  mDirty : Bool
  mActive : Bool
  mTentative : Bool
  mNoCopyTextureSelected : Bool
deriving DecidableEq, Repr

/-- Function `LLFloaterTexturePicker::setImageID(image_id)` on the members
above (the mode selector and the inventory panel selection it also updates
are widgets outside the embedding). -/
def LLFloaterTexturePicker.setImageID (env : LLInventoryEnv) (p : LLFloaterTexturePicker)
    (image_id : LLUUID) : LLFloaterTexturePicker :=
  if (p.mImageAssetID != image_id || p.mTentative) && p.mActive then
    let p1 := { p with mNoCopyTextureSelected := false, mDirty := true,
                       mImageAssetID := image_id }
    if env.mIsBakedImageId image_id then p1
    else if (findItemID env image_id false false).isNull then p1
    else if env.mItemNoCopy image_id then { p1 with mNoCopyTextureSelected := true }
    else p1
  else p

/-- Function `LLFloaterTexturePicker::resetDirty` (clears the dirty flag of
the view model). -/
def LLFloaterTexturePicker.resetDirty (p : LLFloaterTexturePicker) : LLFloaterTexturePicker :=
  { p with mDirty := false }

/-- Enumeration `LLTextureCtrl::ETexturePickOp`, as used in lltexturectrl.cpp. -/
inductive ETexturePickOp where
  | TEXTURE_CHANGE
  | TEXTURE_SELECT
  | TEXTURE_CANCEL
deriving DecidableEq, Repr

/-- Enumeration `LLPickerSource`, as used in lltexturectrl.cpp. -/
inductive LLPickerSource where
  | PICKER_INVENTORY
  | PICKER_LOCAL
  | PICKER_BAKE
  | PICKER_UNKNOWN
deriving DecidableEq, Repr

/-- Members of `LLTextureCtrl` used by the embedded functions.  The enabled,
tentative and dirty flags are those of the control itself (`getEnabled()`,
`setTentative`, `mViewModel`); the two callback members record whether a
callback is installed; `mFloater` is what `mFloaterHandle.get()` yields, none
when no picker is open. -/
structure LLTextureCtrl where
  mImageAssetID : LLUUID
  mImageItemID : LLUUID
  mDefaultImageAssetID : LLUUID
  mEnabled : Bool
  mTentative : Bool
  mDirty : Bool
  mCommitOnSelection : Bool
  mOnSelectCallback : Bool
  mOnCancelCallback : Bool
  mFloater : Option LLFloaterTexturePicker
deriving DecidableEq, Repr

/-- Function `LLTextureCtrl::setImageAssetID`. -/
def LLTextureCtrl.setImageAssetID (env : LLInventoryEnv) (c : LLTextureCtrl)
    (asset_id : LLUUID) : LLTextureCtrl :=
  if c.mImageAssetID != asset_id then
    let c1 := { c with mImageItemID := LLUUID.null, mImageAssetID := asset_id }
    match c1.mFloater with
    | some fl =>
      if c1.mEnabled then
        { c1 with mFloater := some (fl.setImageID env asset_id).resetDirty }
      else c1
    | none => c1
  else c

/-- Inline accessor `getImageAssetID` of lltexturectrl.h (the header is outside
the sources at hand): the stored asset id. -/
def LLTextureCtrl.getImageAssetID (c : LLTextureCtrl) : LLUUID :=
  c.mImageAssetID

/-- Inline setter `setDefaultImageAssetID` of lltexturectrl.h (the header is
outside the sources at hand): stores the default asset id. -/
def LLTextureCtrl.setDefaultImageAssetID (c : LLTextureCtrl) (id : LLUUID) : LLTextureCtrl :=
  { c with mDefaultImageAssetID := id }

/-- Function `LLTextureCtrl::setValue`. -/
def LLTextureCtrl.setValue (env : LLInventoryEnv) (c : LLTextureCtrl) (value : LLSD) :
    LLTextureCtrl :=
  c.setImageAssetID env value.asUUID

/-- Function `LLTextureCtrl::getValue`. -/
def LLTextureCtrl.getValue (c : LLTextureCtrl) : LLSD :=
  LLSD.uuid c.getImageAssetID

/-- A call the control makes out of `onFloaterCommit`. -/
inductive LLTextureCtrlCall where
  | onSelectCallback
  | onCancelCallback
  | onCommit
deriving DecidableEq, Repr

/-- Function `LLTextureCtrl::onFloaterCommit(op, source, asset_id, inv_id)`:
the control after the call and the calls made (select callback, cancel
callback, `onCommit`). -/
def LLTextureCtrl.onFloaterCommit (env : LLInventoryEnv) (c : LLTextureCtrl)
    (op : ETexturePickOp) (source : LLPickerSource) (asset_id inv_id : LLUUID) :
    LLTextureCtrl × List LLTextureCtrlCall :=
  match c.mFloater with
  | some floaterp =>
    if c.mEnabled then
      let c1 :=
        if op = .TEXTURE_CANCEL then { c with mDirty := false }
        else if c.mCommitOnSelection || op = .TEXTURE_SELECT then { c with mDirty := true }
        else c
      if floaterp.mDirty || asset_id.notNull then
        let c2 := { c1 with mTentative := false }
        let c3 :=
          match source with
          | .PICKER_INVENTORY => { c2 with mImageItemID := inv_id, mImageAssetID := asset_id }
          | .PICKER_BAKE => { c2 with mImageItemID := LLUUID.null, mImageAssetID := asset_id }
          | .PICKER_LOCAL => { c2 with mImageItemID := LLUUID.null, mImageAssetID := asset_id }
          | .PICKER_UNKNOWN =>
            { c2 with mImageItemID := findItemID env asset_id false false,
                      mImageAssetID := asset_id }
        if op = .TEXTURE_SELECT && c.mOnSelectCallback then (c3, [.onSelectCallback])
        else if op = .TEXTURE_CANCEL && c.mOnCancelCallback then (c3, [.onCancelCallback])
        else if c.mCommitOnSelection || op = .TEXTURE_SELECT then (c3, [.onCommit])
        else (c3, [])
      else (c1, [])
    else (c, [])
  | none => (c, [])

/-- The guard of `onFloaterCommit` under which a notification is processed: a
picker is open, the control is enabled, and the picker is dirty or the asset
id is not null. -/
def LLTextureCtrl.passesGuard (c : LLTextureCtrl) (asset_id : LLUUID) : Bool :=
  match c.mFloater with
  | some floaterp => c.mEnabled && (floaterp.mDirty || asset_id.notNull)
  | none => false

/-- Example inventory: nothing matches any asset id. -/
def emptyInventory : LLInventoryEnv :=
  { mItems := fun _ => [], mIsBakedImageId := fun _ => false, mItemNoCopy := fun _ => false }

/-- Example control: enabled, `no_commit_on_selection` set (so
`mCommitOnSelection` is false), a select callback installed, an open picker. -/
def selectCallbackCtrl : LLTextureCtrl :=
  { mImageAssetID := ⟨1⟩, mImageItemID := LLUUID.null, mDefaultImageAssetID := LLUUID.null
    mEnabled := true, mTentative := false, mDirty := false
    mCommitOnSelection := false, mOnSelectCallback := true, mOnCancelCallback := false
    mFloater := some { mImageAssetID := ⟨1⟩, mDirty := false, mActive := true,
                       mTentative := false, mNoCopyTextureSelected := false } }

/-- Example inventory for asset id 9: a copyable item 10 in the library, an
item 11 that is not copyable, and a copyable item 12 outside the library. -/
def libraryInventory : LLInventoryEnv :=
  { mItems := fun a =>
      if a = ⟨9⟩ then [⟨⟨10⟩, true, true⟩, ⟨⟨11⟩, false, false⟩, ⟨⟨12⟩, true, false⟩] else []
    mIsBakedImageId := fun _ => false
    mItemNoCopy := fun _ => false }

end LLTextureCtrlModel

/-!
# Material editor (`LLMaterialEditor`)

Embedding of the texture upload and save path of
`indra/newview/llmaterialeditor.cpp`: the texture id accessors, the pending
upload ids, `setHasUnsavedChanges`, `saveTexture`, `saveTextures` with its
upload callbacks, `saveToInventoryItem` and `saveIfNeeded`, and of the GLTF
model path `write_texture`, `getGLTFModel` and `setFromGltfModel`.  Requests
handed to the uploader and the inventory are returned as a list of actions.
In `saveTextures`, `saveIfNeeded` and `uploadCallback` a callback runs after
the call that handed it over has returned; `saveTexturesWith` takes the
behaviour of the uploader as an input and covers callbacks that run inside the
call.
-/

namespace LLMaterialEditorModel

open LLTextureCtrlModel

/-- An encoded upload image (`LLImageJ2C`): its data bytes; `getDataSize()` is
their number. -/
structure LLImageJ2C where
  mData : List Nat
deriving DecidableEq, Repr

/-- A fetched texture (`LLViewerFetchedTexture`), by its id. -/
structure LLViewerFetchedTexture where
  mID : LLUUID
deriving DecidableEq, Repr

/-- The four texture slots of the editor, in the order `saveTextures` goes
through them. -/
inductive ETextureSlot where
  | albedo
  | normal
  | metallicRoughness
  | emissive
deriving DecidableEq, Repr

/-- Asset status of the preview (`mAssetStatus` of `LLPreview`). -/
inductive EAssetStatus where
  | PREVIEW_ASSET_ERROR
  | PREVIEW_ASSET_UNLOADED
  | PREVIEW_ASSET_LOADING
  | PREVIEW_ASSET_LOADED
deriving DecidableEq, Repr

/-- Members of `LLMaterialEditor` used by the embedded functions; `mEnabled`
and `mClosed` stand for `setEnabled` and `closeFloater` of the floater,
`mUnsavedChangesVisible` and `mTotalUploadFee` for the two child widgets
`setHasUnsavedChanges` updates, `mAlphaMode` and `mDoubleSided` for the values
of the child widgets "alpha mode" and "double sided" (`childGetValue`,
`childSetValue`). -/
structure LLMaterialEditor where
  mAlbedoTextureCtrl : LLTextureCtrl
  mNormalTextureCtrl : LLTextureCtrl
  mMetallicTextureCtrl : LLTextureCtrl
  mEmissiveTextureCtrl : LLTextureCtrl
  mAlbedoTextureUploadId : LLUUID
  mNormalTextureUploadId : LLUUID
  mMetallicTextureUploadId : LLUUID
  mEmissiveTextureUploadId : LLUUID
  mAlbedoJ2C : Option LLImageJ2C
  mNormalJ2C : Option LLImageJ2C
  mMetallicRoughnessJ2C : Option LLImageJ2C
  mEmissiveJ2C : Option LLImageJ2C
  mAlbedoFetched : Option LLViewerFetchedTexture
  mNormalFetched : Option LLViewerFetchedTexture
  mMetallicRoughnessFetched : Option LLViewerFetchedTexture
  mEmissiveFetched : Option LLViewerFetchedTexture
  mAlbedoName : String
  mNormalName : String
  mMetallicRoughnessName : String
  mEmissiveName : String
  mMaterialName : String
  mUploadingTexturesCount : Int
  mHasUnsavedChanges : Bool
  mUnsavedChangesVisible : Bool
  mExpectedUploadCost : Int
  mTotalUploadFee : Int
  mItemUUID : LLUUID
  mObjectUUID : LLUUID
  mCloseAfterSave : Bool
  mAssetStatus : EAssetStatus
  mEnabled : Bool
  mClosed : Bool
  mAlphaMode : String
  mDoubleSided : Bool
deriving DecidableEq, Repr

/-- Capability URLs of the agent's region
(`region->getCapability("UpdateMaterialAgentInventory")` and
`"UpdateMaterialTaskInventory"`); an absent capability is the empty string. -/
structure LLRegionCaps where
  mAgentUrl : String
  mTaskUrl : String
deriving DecidableEq, Repr

/-- What the editor reads from its surroundings, as inputs: the inventory (for
the texture controls), the per-texture upload cost
(`LLAgentBenefitsMgr::current().getTextureUploadCost()`), the region of the
agent if any, whether the editor has an inventory item (`getItem()`), and the
serialisation of the material (`getEncodedAsset`, done by the GLTF and LLSD
libraries). -/
structure LLEditorEnv where
  mInventory : LLInventoryEnv
  mTextureUploadCost : Int
  mRegion : Option LLRegionCaps
  mHasItem : Bool
  mEncodedAsset : LLMaterialEditor → String

/-- A request the editor hands to the uploader or the inventory. -/
inductive LLEditorAction where
  | uploadNewResource (slot : ETextureSlot) (asset_id : LLUUID) (name : String)
      (buffer : List Nat) (expected_upload_cost : Int)
  | enqueueInventoryUpload (url : String) (item_id task_id : LLUUID) (buffer : String)
  | createInventoryItem (name : String) (buffer : String)
deriving DecidableEq, Repr

/-- Function `LLMaterialEditor::getAlbedoId`. -/
def LLMaterialEditor.getAlbedoId (me : LLMaterialEditor) : LLUUID :=
  me.mAlbedoTextureCtrl.getValue.asUUID

/-- Function `LLMaterialEditor::getNormalId`. -/
def LLMaterialEditor.getNormalId (me : LLMaterialEditor) : LLUUID :=
  me.mNormalTextureCtrl.getValue.asUUID

/-- Function `LLMaterialEditor::getMetallicRoughnessId`. -/
def LLMaterialEditor.getMetallicRoughnessId (me : LLMaterialEditor) : LLUUID :=
  me.mMetallicTextureCtrl.getValue.asUUID

/-- Function `LLMaterialEditor::getEmissiveId`. -/
def LLMaterialEditor.getEmissiveId (me : LLMaterialEditor) : LLUUID :=
  me.mEmissiveTextureCtrl.getValue.asUUID

/-- Function `LLMaterialEditor::setAlbedoId`. -/
def LLMaterialEditor.setAlbedoId (env : LLEditorEnv) (me : LLMaterialEditor) (id : LLUUID) :
    LLMaterialEditor :=
  { me with mAlbedoTextureCtrl :=
      ((me.mAlbedoTextureCtrl.setValue env.mInventory (LLSD.uuid id)).setDefaultImageAssetID id) }

/-- Function `LLMaterialEditor::setNormalId`. -/
def LLMaterialEditor.setNormalId (env : LLEditorEnv) (me : LLMaterialEditor) (id : LLUUID) :
    LLMaterialEditor :=
  { me with mNormalTextureCtrl :=
      ((me.mNormalTextureCtrl.setValue env.mInventory (LLSD.uuid id)).setDefaultImageAssetID id) }

/-- Function `LLMaterialEditor::setMetallicRoughnessId`. -/
def LLMaterialEditor.setMetallicRoughnessId (env : LLEditorEnv) (me : LLMaterialEditor)
    (id : LLUUID) : LLMaterialEditor :=
  { me with mMetallicTextureCtrl :=
      ((me.mMetallicTextureCtrl.setValue env.mInventory (LLSD.uuid id)).setDefaultImageAssetID id) }

/-- Function `LLMaterialEditor::setEmissiveId`. -/
def LLMaterialEditor.setEmissiveId (env : LLEditorEnv) (me : LLMaterialEditor)
    (id : LLUUID) : LLMaterialEditor :=
  { me with mEmissiveTextureCtrl :=
      ((me.mEmissiveTextureCtrl.setValue env.mInventory (LLSD.uuid id)).setDefaultImageAssetID id) }

/-- Function `LLMaterialEditor::saveTexture(img, name, asset_id, cb)`: nothing
is handed to the uploader for a null asset id, a null image or an image
without data; otherwise one `upload_new_resource` request, whose callback is
the one of `slot`. -/
def saveTexture (env : LLEditorEnv) (img : Option LLImageJ2C) (name : String)
    (asset_id : LLUUID) (slot : ETextureSlot) : List LLEditorAction :=
  match img with
  | none => []
  | some j2c =>
    if asset_id.isNull || j2c.mData.length == 0 then []
    else [.uploadNewResource slot asset_id name j2c.mData env.mTextureUploadCost]

/-- One of the four `if` blocks of `saveTextures`: when the slot is pending
(its upload id equals its current id and is not null), `mUploadingTexturesCount`
and `work_count` are incremented and `saveTexture` is called for the slot. -/
def scheduleUpload (env : LLEditorEnv) (r : LLMaterialEditor × Int × List LLEditorAction)
    (pending : Bool) (img : Option LLImageJ2C) (name : String) (asset_id : LLUUID)
    (slot : ETextureSlot) : LLMaterialEditor × Int × List LLEditorAction :=
  if pending then
    ({ r.1 with mUploadingTexturesCount := r.1.mUploadingTexturesCount + 1 }, r.2.1 + 1,
      r.2.2 ++ saveTexture env img name asset_id slot)
  else r

/-- The end of `saveTextures`: the upload buffers, the fetched textures and the
pending-upload ids are discarded. -/
def LLMaterialEditor.discardUploadState (me : LLMaterialEditor) : LLMaterialEditor :=
  { me with
    mAlbedoJ2C := none, mNormalJ2C := none, mEmissiveJ2C := none,
    mMetallicRoughnessJ2C := none,
    mAlbedoFetched := none, mNormalFetched := none, mMetallicRoughnessFetched := none,
    mEmissiveFetched := none,
    mAlbedoTextureUploadId := LLUUID.null, mNormalTextureUploadId := LLUUID.null,
    mMetallicTextureUploadId := LLUUID.null, mEmissiveTextureUploadId := LLUUID.null }

/-- Function `LLMaterialEditor::saveTextures`: the editor after the call, the
returned `work_count`, and the requests handed to the uploader (albedo, normal,
metallic-roughness, emissive, in that order). -/
def LLMaterialEditor.saveTextures (env : LLEditorEnv) (me : LLMaterialEditor) :
    LLMaterialEditor × Int × List LLEditorAction :=
  let r0 : LLMaterialEditor × Int × List LLEditorAction := (me, 0, [])
  let r1 := scheduleUpload env r0
    (r0.1.mAlbedoTextureUploadId == r0.1.getAlbedoId && r0.1.mAlbedoTextureUploadId.notNull)
    r0.1.mAlbedoJ2C r0.1.mAlbedoName r0.1.mAlbedoTextureUploadId .albedo
  let r2 := scheduleUpload env r1
    (r1.1.mNormalTextureUploadId == r1.1.getNormalId && r1.1.mNormalTextureUploadId.notNull)
    r1.1.mNormalJ2C r1.1.mNormalName r1.1.mNormalTextureUploadId .normal
  let r3 := scheduleUpload env r2
    (r2.1.mMetallicTextureUploadId == r2.1.getMetallicRoughnessId &&
      r2.1.mMetallicTextureUploadId.notNull)
    r2.1.mMetallicRoughnessJ2C r2.1.mMetallicRoughnessName r2.1.mMetallicTextureUploadId
    .metallicRoughness
  let r4 := scheduleUpload env r3
    (r3.1.mEmissiveTextureUploadId == r3.1.getEmissiveId && r3.1.mEmissiveTextureUploadId.notNull)
    r3.1.mEmissiveJ2C r3.1.mEmissiveName r3.1.mEmissiveTextureUploadId .emissive
  (r4.1.discardUploadState, r4.2.1, r4.2.2)

/-- Function `LLMaterialEditor::saveToInventoryItem(buffer, item_id, task_id)`:
the returned flag and the upload enqueued, if any. -/
def saveToInventoryItem (env : LLEditorEnv) (buffer : String) (item_id task_id : LLUUID) :
    Bool × List LLEditorAction :=
  match env.mRegion with
  | none => (false, [])
  | some region =>
    if !region.mAgentUrl.isEmpty && !region.mTaskUrl.isEmpty then
      if task_id.isNull && !region.mAgentUrl.isEmpty then
        (true, [.enqueueInventoryUpload region.mAgentUrl item_id task_id buffer])
      else if !task_id.isNull && !region.mTaskUrl.isEmpty then
        (true, [.enqueueInventoryUpload region.mTaskUrl item_id task_id buffer])
      else (false, [])
    else (false, [])

/-- Function `LLMaterialEditor::saveIfNeeded`: the editor after the call, the
returned flag, and the requests made. -/
def LLMaterialEditor.saveIfNeeded (env : LLEditorEnv) (me : LLMaterialEditor) :
    LLMaterialEditor × Bool × List LLEditorAction :=
  if me.mUploadingTexturesCount > 0 then (me, true, [])
  else
    let t := me.saveTextures env
    if t.2.1 > 0 then ({ t.1 with mEnabled := false }, true, t.2.2)
    else
      let buffer := env.mEncodedAsset t.1
      if env.mHasItem then
        let r := saveToInventoryItem env buffer t.1.mItemUUID t.1.mObjectUUID
        if !r.1 then (t.1, false, t.2.2 ++ r.2)
        else if t.1.mCloseAfterSave then ({ t.1 with mClosed := true }, true, t.2.2 ++ r.2)
        else
          ({ t.1 with mAssetStatus := .PREVIEW_ASSET_LOADING, mEnabled := false }, true,
            t.2.2 ++ r.2)
      else
        ({ t.1 with mClosed := true }, true,
          t.2.2 ++ [.createInventoryItem t.1.mMaterialName buffer])

/-- The callback `saveTextures` installs for a slot, run with the new asset id
and the `success` flag of the response on the editor instance that
`findTypedInstance` finds (without an instance the callback does nothing): the
editor after the callback and the requests made by the `saveIfNeeded` at its
end. -/
def uploadCallback (env : LLEditorEnv) (slot : ETextureSlot) (newAssetId : LLUUID)
    (success : Bool) (me : LLMaterialEditor) : LLMaterialEditor × List LLEditorAction :=
  let me1 : LLMaterialEditor :=
    match slot with
    | .albedo =>
      if success then me.setAlbedoId env newAssetId else me.setAlbedoId env LLUUID.null
    | .normal =>
      (if success then me.setNormalId env newAssetId
        else me.setNormalId env LLUUID.null).setNormalId env newAssetId
    | .metallicRoughness =>
      if success then me.setMetallicRoughnessId env newAssetId
      else me.setMetallicRoughnessId env LLUUID.null
    | .emissive =>
      if success then me.setEmissiveId env newAssetId else me.setEmissiveId env LLUUID.null
  let me2 := { me1 with mUploadingTexturesCount := me1.mUploadingTexturesCount - 1 }
  let r := me2.saveIfNeeded env
  (r.1, r.2.2)

/-- The texture id of a slot (`getAlbedoId`, `getNormalId`,
`getMetallicRoughnessId`, `getEmissiveId`). -/
def LLMaterialEditor.getTextureId (me : LLMaterialEditor) : ETextureSlot → LLUUID
  | .albedo => me.getAlbedoId
  | .normal => me.getNormalId
  | .metallicRoughness => me.getMetallicRoughnessId
  | .emissive => me.getEmissiveId

/-- The pending-upload id of a slot. -/
def LLMaterialEditor.getUploadId (me : LLMaterialEditor) : ETextureSlot → LLUUID
  | .albedo => me.mAlbedoTextureUploadId
  | .normal => me.mNormalTextureUploadId
  | .metallicRoughness => me.mMetallicTextureUploadId
  | .emissive => me.mEmissiveTextureUploadId

/-- The four slots. -/
def allSlots : List ETextureSlot :=
  [.albedo, .normal, .metallicRoughness, .emissive]

/-- Number of slots whose pending-upload id is non-null and equal to the
slot's current texture id. -/
def LLMaterialEditor.pendingUploadCount (me : LLMaterialEditor) : Nat :=
  (allSlots.filter (fun slot =>
    (me.getUploadId slot).notNull && me.getUploadId slot == me.getTextureId slot)).length

/-- Number of texture uploads among a list of requests. -/
def uploadCount (actions : List LLEditorAction) : Nat :=
  (actions.filter (fun a =>
    match a with
    | .uploadNewResource _ _ _ _ _ => true
    | _ => false)).length

/-- The part of `LLMaterialEditor::saveIfNeeded` after the call of
`saveTextures`, whose result is `t`. -/
def saveIfNeededAfter (env : LLEditorEnv) (t : LLMaterialEditor × Int × List LLEditorAction) :
    LLMaterialEditor × Bool × List LLEditorAction :=
  if t.2.1 > 0 then ({ t.1 with mEnabled := false }, true, t.2.2)
  else
    let buffer := env.mEncodedAsset t.1
    if env.mHasItem then
      let r := saveToInventoryItem env buffer t.1.mItemUUID t.1.mObjectUUID
      if !r.1 then (t.1, false, t.2.2 ++ r.2)
      else if t.1.mCloseAfterSave then ({ t.1 with mClosed := true }, true, t.2.2 ++ r.2)
      else
        ({ t.1 with mAssetStatus := .PREVIEW_ASSET_LOADING, mEnabled := false }, true,
          t.2.2 ++ r.2)
    else
      ({ t.1 with mClosed := true }, true,
        t.2.2 ++ [.createInventoryItem t.1.mMaterialName buffer])

/-- Example texture control holding asset id `n`, without a picker. -/
def plainCtrl (n : Nat) : LLTextureCtrl :=
  { mImageAssetID := ⟨n⟩, mImageItemID := LLUUID.null, mDefaultImageAssetID := ⟨n⟩
    mEnabled := true, mTentative := false, mDirty := false
    mCommitOnSelection := true, mOnSelectCallback := false, mOnCancelCallback := false
    mFloater := none }

/-- Example environment: empty inventory, upload cost 10, a region with both
capabilities, an editor with an inventory item. -/
def exampleEditorEnv : LLEditorEnv :=
  { mInventory := emptyInventory
    mTextureUploadCost := 10
    mRegion := some { mAgentUrl := "agent", mTaskUrl := "task" }
    mHasItem := true
    mEncodedAsset := fun _ => "asset" }

/-- Example editor: the albedo texture 7 is pending upload (upload id 7 equals
the current albedo id) but its upload buffer is missing (`mAlbedoJ2C` is
null, as when the conversion to an upload file failed); the normal texture 8
is pending upload with a buffer of three bytes; the other slots are empty. -/
def exampleEditor : LLMaterialEditor :=
  { mAlbedoTextureCtrl := plainCtrl 7, mNormalTextureCtrl := plainCtrl 8
    mMetallicTextureCtrl := plainCtrl 0, mEmissiveTextureCtrl := plainCtrl 0
    mAlbedoTextureUploadId := ⟨7⟩, mNormalTextureUploadId := ⟨8⟩
    mMetallicTextureUploadId := LLUUID.null, mEmissiveTextureUploadId := LLUUID.null
    mAlbedoJ2C := none, mNormalJ2C := some ⟨[1, 2, 3]⟩
    mMetallicRoughnessJ2C := none, mEmissiveJ2C := none
    mAlbedoFetched := some ⟨⟨7⟩⟩, mNormalFetched := some ⟨⟨8⟩⟩
    mMetallicRoughnessFetched := none, mEmissiveFetched := none
    mAlbedoName := "Albedo", mNormalName := "Normal"
    mMetallicRoughnessName := "", mEmissiveName := ""
    mMaterialName := "Material"
    mUploadingTexturesCount := 0
    mHasUnsavedChanges := false, mUnsavedChangesVisible := false
    mExpectedUploadCost := 0, mTotalUploadFee := 0
    mItemUUID := ⟨100⟩, mObjectUUID := LLUUID.null
    mCloseAfterSave := false
    mAssetStatus := .PREVIEW_ASSET_LOADED
    mEnabled := true, mClosed := false
    mAlphaMode := "BLEND", mDoubleSided := true }

/-- Text form of ids: `LLUUID::asString()` and `LLUUID::set(const std::string&)`
of the common library, as inputs (`set` yields the id a string parses to). -/
structure LLUUIDText where
  asString : LLUUID → String
  set : String → LLUUID

/-- The part of `tinygltf::Image` the editor writes and reads: the `uri`. -/
structure tinygltf.Image where
  uri : String
deriving DecidableEq, Repr

/-- The part of `tinygltf::Texture` the editor writes: the index `source` of
its image (an `int`). -/
structure tinygltf.Texture where
  source : Int
deriving DecidableEq, Repr

/-- The fields of `tinygltf::Material` for the texture ids, the alpha mode and
the double-sided flag: the `index` of `pbrMetallicRoughness.baseColorTexture`,
of `pbrMetallicRoughness.metallicRoughnessTexture`, of `emissiveTexture` and of
`normalTexture`, `alphaMode` and `doubleSided`.  The colour, cutoff and factor
fields, which `getGLTFModel` fills from other child widgets, are left out. -/
structure tinygltf.Material where
  baseColorTextureIndex : Int
  metallicRoughnessTextureIndex : Int
  emissiveTextureIndex : Int
  normalTextureIndex : Int
  alphaMode : String
  doubleSided : Bool
deriving DecidableEq, Repr

/-- A default-constructed `tinygltf::Material`: every texture index is -1, the
alpha mode is "OPAQUE", the material is single sided. -/
def tinygltf.Material.default : tinygltf.Material :=
  { baseColorTextureIndex := -1, metallicRoughnessTextureIndex := -1
    emissiveTextureIndex := -1, normalTextureIndex := -1
    alphaMode := "OPAQUE", doubleSided := false }

/-- The vectors of `tinygltf::Model` the editor uses, and `asset.version`. -/
structure tinygltf.Model where
  materials : List tinygltf.Material
  images : List tinygltf.Image
  textures : List tinygltf.Texture
  assetVersion : String
deriving DecidableEq, Repr

/-- A default-constructed `tinygltf::Model`, as `getGLTFJson` and `getGLBData`
hand to `getGLTFModel`. -/
def tinygltf.Model.empty : tinygltf.Model :=
  { materials := [], images := [], textures := [], assetVersion := "" }

/-- Conversion of a `U32` value to `int` (two's complement, 32 bits). -/
def toS32 (n : Nat) : Int :=
  if n % 2 ^ 32 < 2 ^ 31 then ((n % 2 ^ 32 : Nat) : Int) else ((n % 2 ^ 32 : Nat) : Int) - 2 ^ 32

/-- Function `write_texture(id, model)`: appends an image whose uri is the
text of `id`, then a texture whose source is the index of that image;
returns the index of the texture (a `U32`) and the model. -/
def write_texture (codec : LLUUIDText) (id : LLUUID) (model : tinygltf.Model) :
    Nat × tinygltf.Model :=
  let images := model.images ++ [{ uri := codec.asString id }]
  let image_idx := (images.length - 1) % 2 ^ 32
  let textures := model.textures ++ [{ source := toS32 image_idx }]
  let texture_idx := (textures.length - 1) % 2 ^ 32
  (texture_idx, { model with images := images, textures := textures })

/-- One `if (id.notNull())` block of `getGLTFModel`: for a non-null id the
texture is written and its index assigned to the `index` field of the slot;
otherwise the field keeps its value `index` and the model is untouched. -/
def writeTextureIfSet (codec : LLUUIDText) (id : LLUUID) (index : Int)
    (model : tinygltf.Model) : Int × tinygltf.Model :=
  if id.notNull then
    let r := write_texture codec id model
    (toS32 r.1, r.2)
  else (index, model)

/-- The vector after `model.materials.resize(1)`. -/
def resizeMaterials (materials : List tinygltf.Material) : List tinygltf.Material :=
  match materials with
  | [] => [tinygltf.Material.default]
  | m :: _ => [m]

/-- Function `LLMaterialEditor::getAlphaMode`. -/
def LLMaterialEditor.getAlphaMode (me : LLMaterialEditor) : String :=
  me.mAlphaMode

/-- Function `LLMaterialEditor::setAlphaMode`. -/
def LLMaterialEditor.setAlphaMode (me : LLMaterialEditor) (alpha_mode : String) :
    LLMaterialEditor :=
  { me with mAlphaMode := alpha_mode }

/-- Function `LLMaterialEditor::getDoubleSided`. -/
def LLMaterialEditor.getDoubleSided (me : LLMaterialEditor) : Bool :=
  me.mDoubleSided

/-- Function `LLMaterialEditor::setDoubleSided`. -/
def LLMaterialEditor.setDoubleSided (me : LLMaterialEditor) (double_sided : Bool) :
    LLMaterialEditor :=
  { me with mDoubleSided := double_sided }

/-- Function `LLMaterialEditor::getGLTFModel(model)`: the model after the call.
The textures are written in the order albedo, metallic-roughness, emissive,
normal. -/
def LLMaterialEditor.getGLTFModel (codec : LLUUIDText) (me : LLMaterialEditor)
    (model : tinygltf.Model) : tinygltf.Model :=
  let model1 := { model with materials := resizeMaterials model.materials }
  let mat0 := model1.materials.headD tinygltf.Material.default
  let mat1 := { mat0 with alphaMode := me.getAlphaMode }
  let a := writeTextureIfSet codec me.getAlbedoId mat1.baseColorTextureIndex model1
  let mr := writeTextureIfSet codec me.getMetallicRoughnessId
    mat1.metallicRoughnessTextureIndex a.2
  let e := writeTextureIfSet codec me.getEmissiveId mat1.emissiveTextureIndex mr.2
  let n := writeTextureIfSet codec me.getNormalId mat1.normalTextureIndex e.2
  { n.2 with
    materials := [{ mat1 with baseColorTextureIndex := a.1
                              metallicRoughnessTextureIndex := mr.1
                              emissiveTextureIndex := e.1
                              normalTextureIndex := n.1
                              doubleSided := me.getDoubleSided }]
    assetVersion := "2.0" }

/-- One `if (index >= 0) ... else ...` block of `setFromGltfModel`: the id to
set for a slot whose texture index is `index`.  For `index >= 0` it is the id
parsed from `model.images[index].uri`; the vector is read without a bounds
check, so there is no result when `index` is outside it.  For a negative
`index` it is the null id. -/
def readTextureId (codec : LLUUIDText) (model : tinygltf.Model) (index : Int) :
    Option LLUUID :=
  if index ≥ 0 then (model.images[index.toNat]?).map (fun image => codec.set image.uri)
  else some LLUUID.null

/-- Function `LLMaterialEditor::setFromGltfModel(model, set_textures)`: the
editor after the call and the returned flag; no result when an image is read
outside `model.images`. -/
def LLMaterialEditor.setFromGltfModel (codec : LLUUIDText) (env : LLEditorEnv)
    (me : LLMaterialEditor) (model : tinygltf.Model) (set_textures : Bool) :
    Option (LLMaterialEditor × Bool) :=
  match model.materials with
  | [] => some (me, true)
  | material_in :: _ =>
    let textured : Option LLMaterialEditor :=
      if set_textures then
        (readTextureId codec model material_in.baseColorTextureIndex).bind (fun id1 =>
        (readTextureId codec model material_in.normalTextureIndex).bind (fun id2 =>
        (readTextureId codec model material_in.metallicRoughnessTextureIndex).bind (fun id3 =>
        (readTextureId codec model material_in.emissiveTextureIndex).map (fun id4 =>
          (((me.setAlbedoId env id1).setNormalId env id2).setMetallicRoughnessId env
            id3).setEmissiveId env id4))))
      else some me
    textured.map (fun me4 =>
      ((me4.setAlphaMode material_in.alphaMode).setDoubleSided material_in.doubleSided, true))

/-- The texture index a material stores for a slot. -/
def tinygltf.Material.textureIndex (m : tinygltf.Material) : ETextureSlot → Int
  | .albedo => m.baseColorTextureIndex
  | .normal => m.normalTextureIndex
  | .metallicRoughness => m.metallicRoughnessTextureIndex
  | .emissive => m.emissiveTextureIndex

/-- The texture `index` stored for a slot whose id is `id` agrees with the
images and textures: for a non-null id, `index` is not negative, the image at
`index` has the text of `id` as its uri and the texture at `index` has that
image as its source; for the null id no texture is stored (`index` is -1). -/
def storedInLockstep (codec : LLUUIDText) (images : List tinygltf.Image)
    (textures : List tinygltf.Texture) (id : LLUUID) (index : Int) : Prop :=
  if id.notNull then
    0 ≤ index ∧ images[index.toNat]? = some { uri := codec.asString id } ∧
      textures[index.toNat]? = some { source := index }
  else index = -1

/-- Example text form of ids: id number `n` is written as `n` letters, and a
string is read as the id whose number is its length. -/
def exampleText : LLUUIDText :=
  { asString := fun id => String.mk (List.replicate id.mData (Char.ofNat 120))
    set := fun s => ⟨s.length⟩ }

/-- Example region environment in which the task capability is missing. -/
def agentOnlyEnv : LLEditorEnv :=
  { mInventory := emptyInventory
    mTextureUploadCost := 10
    mRegion := some { mAgentUrl := "agent", mTaskUrl := "" }
    mHasItem := true
    mEncodedAsset := fun _ => "asset" }

end LLMaterialEditorModel

namespace LLViewerInputModel

open EKeyboardMode EMouseState

/-! ## Theorems -/

theorem handleMouse_level (s : LLViewerInput) (mode : EKeyboardMode) (mask : MASK)
    (c : EMouseClickType) (d : Bool) (C : Nat) :
    (handleMouse s mode mask c d).1.mMouseLevel[C]? =
      (s.mMouseLevel[C]?).map (fun a =>
        if c = C then (if d then mouseLevelOnDown else mouseLevelOnUp) a else a) := by
  simp [handleMouse, List.getElem?_modify]

theorem scanMouse_level (s : LLViewerInput) (mode : EKeyboardMode) (mask : MASK)
    (C : Nat) :
    (scanMouse s mode mask).1.mMouseLevel[C]? = (s.mMouseLevel[C]?).map mouseLevelAfterScan := by
  simp [scanMouse]

theorem dispatchedStates_cons (C : Nat) (d : LLMouseDispatch) (ds : List LLMouseDispatch) :
    dispatchedStates C (d :: ds) =
      if d.mClick = C then d.mState :: dispatchedStates C ds else dispatchedStates C ds := by
  by_cases h : d.mClick = C <;> simp [dispatchedStates, List.filter_cons, h]

theorem dispatchedStates_scanMouseFrom (s : LLViewerInput) (mode : EKeyboardMode) (mask : MASK)
    (C : Nat) (l : List EMouseState) :
    ∀ i : Nat, dispatchedStates C (scanMouseFrom s mode mask i l) =
      if i ≤ C then ((l[C - i]?).bind mouseLevelDispatch).toList else [] := by
  induction l with
  | nil => intro i; simp [scanMouseFrom, dispatchedStates]
  | cons st rest ih =>
    intro i
    have hrec := ih (i + 1)
    rcases Nat.lt_trichotomy i C with h | h | h
    · have e : C - i = (C - (i + 1)) + 1 := by omega
      have hne : ¬ i = C := by omega
      rw [if_pos (by omega), e, List.getElem?_cons_succ]
      rw [if_pos (by omega)] at hrec
      rw [← hrec]
      cases hd : mouseLevelDispatch st <;>
        simp [scanMouseFrom, hd, dispatchedStates_cons, scanMouseClick, hne]
    · subst h
      rw [if_neg (by omega)] at hrec
      cases hd : mouseLevelDispatch st <;>
        simp [scanMouseFrom, hd, dispatchedStates_cons, scanMouseClick, hrec]
    · have hne : ¬ i = C := by omega
      rw [if_neg (by omega)]
      rw [if_neg (by omega)] at hrec
      cases hd : mouseLevelDispatch st <;>
        simp [scanMouseFrom, hd, dispatchedStates_cons, scanMouseClick, hrec, hne]

theorem dispatchedStates_scanMouse (s : LLViewerInput) (mode : EKeyboardMode) (mask : MASK)
    (C : Nat) :
    dispatchedStates C (scanMouse s mode mask).2 =
      ((s.mMouseLevel[C]?).bind mouseLevelDispatch).toList := by
  simp [scanMouse, dispatchedStates_scanMouseFrom]

theorem applyEvent_level (s : LLViewerInput) (e : LLInputEvent) (C : Nat) :
    (applyEvent s e).mMouseLevel[C]? = (s.mMouseLevel[C]?).map (clickStep C e) := by
  cases e with
  | mouse m k c d =>
    simp only [applyEvent, handleMouse_level]
    congr 1
    funext a
    cases d <;> simp [clickStep]
  | scan m k => simp only [applyEvent, scanMouse_level, clickStep]; rfl

theorem applyEvents_level (C : Nat) (es : List LLInputEvent) :
    ∀ s : LLViewerInput, (applyEvents s es).mMouseLevel[C]? =
      (s.mMouseLevel[C]?).map (fun a => es.foldl (fun st e => clickStep C e st) a) := by
  induction es with
  | nil => intro s; simp [applyEvents]
  | cons e rest ih =>
    intro s
    have h := ih (applyEvent s e)
    simp only [applyEvents, List.foldl_cons] at h ⊢
    rw [h, applyEvent_level]
    cases s.mMouseLevel[C]? <;> simp

theorem held_foldl (C : Nat) (es : List LLInputEvent)
    (hes : ∀ e ∈ es, ∀ m k, e ≠ LLInputEvent.mouse m k C false) :
    ∀ st, (st = MOUSE_STATE_DOWN ∨ st = MOUSE_STATE_LEVEL) →
      (es.foldl (fun st e => clickStep C e st) st = MOUSE_STATE_DOWN ∨
        es.foldl (fun st e => clickStep C e st) st = MOUSE_STATE_LEVEL) := by
  induction es with
  | nil => intro st h; simpa using h
  | cons e rest ih =>
    intro st h
    simp only [List.foldl_cons]
    apply ih (fun e' he' => hes e' (List.mem_cons_of_mem _ he'))
    have he := hes e (List.mem_cons_self _ _)
    cases e with
    | mouse m k c d =>
      by_cases hc : c = C
      · subst hc
        cases d
        · exact absurd rfl (he m k)
        · simp [clickStep, mouseLevelOnDown]
      · simp [clickStep, hc, h]
    | scan m k => rcases h with h | h <;> simp [clickStep, h, mouseLevelAfterScan]

theorem silent_foldl (C : Nat) (es : List LLInputEvent)
    (hes : ∀ e ∈ es, ∀ m k, e ≠ LLInputEvent.mouse m k C true) :
    es.foldl (fun st e => clickStep C e st) MOUSE_STATE_SILENT = MOUSE_STATE_SILENT := by
  induction es with
  | nil => rfl
  | cons e rest ih =>
    simp only [List.foldl_cons]
    have he := hes e (List.mem_cons_self _ _)
    have hstep : clickStep C e MOUSE_STATE_SILENT = MOUSE_STATE_SILENT := by
      cases e with
      | mouse m k c d =>
        by_cases hc : c = C
        · subst hc
          cases d
          · simp [clickStep, mouseLevelOnUp]
          · exact absurd rfl (he m k)
        · simp [clickStep, hc]
      | scan m k => simp [clickStep, mouseLevelAfterScan]
    rw [hstep]
    exact ih (fun e' he' => hes e' (List.mem_cons_of_mem _ he'))

theorem other_foldl (C : Nat) (es : List LLInputEvent)
    (hes : ∀ e ∈ es, ∃ m k c d, e = LLInputEvent.mouse m k c d ∧ c ≠ C) :
    ∀ st, es.foldl (fun st e => clickStep C e st) st = st := by
  induction es with
  | nil => intro st; rfl
  | cons e rest ih =>
    intro st
    simp only [List.foldl_cons]
    obtain ⟨m, k, c, d, rfl, hc⟩ := hes e (List.mem_cons_self _ _)
    simp only [clickStep, if_neg hc]
    exact ih (fun e' he' => hes e' (List.mem_cons_of_mem _ he')) st

/-- C3: for every click type C of the router, a DOWN recorded by `handleMouse`
followed by an UP recorded by `handleMouse` before the next `scanMouse()` (with
raw events of other click types possibly in between) makes that `scanMouse()`
call dispatch C exactly once, in state CLICK - not in state DOWN and then UP -
and leaves C silent, so nothing further is dispatched for the click. -/
theorem C3_down_up_same_cycle_is_one_click (s : LLViewerInput)
    (m1 m2 mode : EKeyboardMode) (k1 k2 mask : MASK) (C : EMouseClickType)
    (es1 es2 : List LLInputEvent)
    (hC : C < s.mMouseLevel.length)
    (h1 : ∀ e ∈ es1, ∃ m k c d, e = LLInputEvent.mouse m k c d ∧ c ≠ C)
    (h2 : ∀ e ∈ es2, ∃ m k c d, e = LLInputEvent.mouse m k c d ∧ c ≠ C) :
    dispatchedStates C (scanMouse (applyEvents (handleMouse (applyEvents
        (handleMouse s m1 k1 C true).1 es1) m2 k2 C false).1 es2) mode mask).2
      = [MOUSE_STATE_CLICK] ∧
    (scanMouse (applyEvents (handleMouse (applyEvents
        (handleMouse s m1 k1 C true).1 es1) m2 k2 C false).1 es2) mode mask).1.mMouseLevel[C]?
      = some MOUSE_STATE_SILENT := by
  obtain ⟨st, hst⟩ : ∃ st, s.mMouseLevel[C]? = some st :=
    ⟨s.mMouseLevel[C], List.getElem?_eq_getElem hC⟩
  have hlev : (applyEvents (handleMouse (applyEvents
      (handleMouse s m1 k1 C true).1 es1) m2 k2 C false).1 es2).mMouseLevel[C]?
      = some MOUSE_STATE_CLICK := by
    rw [applyEvents_level, handleMouse_level, applyEvents_level, handleMouse_level, hst]
    simp [other_foldl C es1 h1, other_foldl C es2 h2, mouseLevelOnDown, mouseLevelOnUp]
  constructor
  · rw [dispatchedStates_scanMouse, hlev]; rfl
  · rw [scanMouse_level, hlev]; rfl

/-- Witness for C3 on a router with three idle click types, click type 1, with
a raw event of click type 2 in between. -/
theorem C3_down_up_same_cycle_is_one_click_witness :
    dispatchedStates 1 (scanMouse (applyEvents (handleMouse (applyEvents
        (handleMouse (idleInput 3) MODE_THIRD_PERSON 0 1 true).1
        [LLInputEvent.mouse MODE_THIRD_PERSON 0 2 true]) MODE_THIRD_PERSON 0 1 false).1 [])
        MODE_THIRD_PERSON 0).2 = [MOUSE_STATE_CLICK] ∧
    (scanMouse (applyEvents (handleMouse (applyEvents
        (handleMouse (idleInput 3) MODE_THIRD_PERSON 0 1 true).1
        [LLInputEvent.mouse MODE_THIRD_PERSON 0 2 true]) MODE_THIRD_PERSON 0 1 false).1 [])
        MODE_THIRD_PERSON 0).1.mMouseLevel[1]? = some MOUSE_STATE_SILENT :=
  C3_down_up_same_cycle_is_one_click (idleInput 3) MODE_THIRD_PERSON MODE_THIRD_PERSON
    MODE_THIRD_PERSON 0 0 0 1 [LLInputEvent.mouse MODE_THIRD_PERSON 0 2 true] []
    (by decide)
    (fun e he => by
      rw [List.mem_singleton] at he
      exact ⟨MODE_THIRD_PERSON, 0, 2, true, he, by decide⟩)
    (by simp)

/-- C4: for every click type C of the router, once a DOWN has been recorded and
no UP is recorded afterwards, every later `scanMouse()` call - whatever other
events (further DOWNs, events of other click types, earlier `scanMouse()`
calls) came in between - dispatches C exactly once, in state LEVEL, and so
never in state CLICK. -/
theorem C4_held_click_dispatches_level (s : LLViewerInput)
    (m0 mode : EKeyboardMode) (k0 mask : MASK) (C : EMouseClickType)
    (es : List LLInputEvent)
    (hC : C < s.mMouseLevel.length)
    (hes : ∀ e ∈ es, ∀ m k, e ≠ LLInputEvent.mouse m k C false) :
    dispatchedStates C
      (scanMouse (applyEvents (handleMouse s m0 k0 C true).1 es) mode mask).2
      = [MOUSE_STATE_LEVEL] := by
  obtain ⟨st, hst⟩ : ∃ st, s.mMouseLevel[C]? = some st :=
    ⟨s.mMouseLevel[C], List.getElem?_eq_getElem hC⟩
  rw [dispatchedStates_scanMouse, applyEvents_level, handleMouse_level, hst]
  simp only [Option.map_some', if_true]
  rcases held_foldl C es hes (mouseLevelOnDown st) (Or.inl rfl) with h | h <;>
    rw [h] <;> rfl

/-- Witness for C4: click type 0 held across two earlier ticks. -/
theorem C4_held_click_dispatches_level_witness :
    dispatchedStates 0
      (scanMouse (applyEvents (handleMouse (idleInput 2) MODE_SITTING 0 0 true).1
        [LLInputEvent.scan MODE_SITTING 0, LLInputEvent.scan MODE_SITTING 0])
        MODE_SITTING 0).2 = [MOUSE_STATE_LEVEL] :=
  C4_held_click_dispatches_level (idleInput 2) MODE_SITTING MODE_SITTING 0 0 0
    [LLInputEvent.scan MODE_SITTING 0, LLInputEvent.scan MODE_SITTING 0]
    (by decide) (by simp)

/-- C5: for every click type C whose UP is pending, `scanMouse()` dispatches
the UP and moves the click state to SILENT; after that, whatever events follow
that record no new DOWN for C, every later `scanMouse()` call dispatches
nothing for C and leaves its state SILENT. -/
theorem C5_silent_after_up_dispatch (s : LLViewerInput)
    (m0 mode : EKeyboardMode) (k0 mask : MASK) (C : EMouseClickType)
    (es : List LLInputEvent)
    (hup : s.mMouseLevel[C]? = some MOUSE_STATE_UP)
    (hes : ∀ e ∈ es, ∀ m k, e ≠ LLInputEvent.mouse m k C true) :
    dispatchedStates C (scanMouse s m0 k0).2 = [MOUSE_STATE_UP] ∧
    (scanMouse s m0 k0).1.mMouseLevel[C]? = some MOUSE_STATE_SILENT ∧
    dispatchedStates C (scanMouse (applyEvents (scanMouse s m0 k0).1 es) mode mask).2 = [] ∧
    (scanMouse (applyEvents (scanMouse s m0 k0).1 es) mode mask).1.mMouseLevel[C]?
      = some MOUSE_STATE_SILENT := by
  have h0 : (scanMouse s m0 k0).1.mMouseLevel[C]? = some MOUSE_STATE_SILENT := by
    rw [scanMouse_level, hup]; rfl
  have h1 : (applyEvents (scanMouse s m0 k0).1 es).mMouseLevel[C]?
      = some MOUSE_STATE_SILENT := by
    rw [applyEvents_level, h0]
    simp [silent_foldl C es hes]
  refine ⟨?_, h0, ?_, ?_⟩
  · rw [dispatchedStates_scanMouse, hup]; rfl
  · rw [dispatchedStates_scanMouse, h1]; rfl
  · rw [scanMouse_level, h1]; rfl

/-- Witness for C5: click type 1 is pressed, held over a tick and released;
the scan after that dispatches the UP, later scans and a stray UP nothing. -/
theorem C5_silent_after_up_dispatch_witness :
    dispatchedStates 1 (scanMouse (applyEvents (idleInput 2)
      [LLInputEvent.mouse MODE_SITTING 0 1 true, LLInputEvent.scan MODE_SITTING 0,
        LLInputEvent.mouse MODE_SITTING 0 1 false]) MODE_SITTING 0).2 = [MOUSE_STATE_UP] ∧
    (scanMouse (applyEvents (idleInput 2)
      [LLInputEvent.mouse MODE_SITTING 0 1 true, LLInputEvent.scan MODE_SITTING 0,
        LLInputEvent.mouse MODE_SITTING 0 1 false]) MODE_SITTING 0).1.mMouseLevel[1]?
      = some MOUSE_STATE_SILENT ∧
    dispatchedStates 1 (scanMouse (applyEvents (scanMouse (applyEvents (idleInput 2)
      [LLInputEvent.mouse MODE_SITTING 0 1 true, LLInputEvent.scan MODE_SITTING 0,
        LLInputEvent.mouse MODE_SITTING 0 1 false]) MODE_SITTING 0).1
      [LLInputEvent.scan MODE_SITTING 0, LLInputEvent.mouse MODE_SITTING 0 1 false])
      MODE_SITTING 0).2 = [] ∧
    (scanMouse (applyEvents (scanMouse (applyEvents (idleInput 2)
      [LLInputEvent.mouse MODE_SITTING 0 1 true, LLInputEvent.scan MODE_SITTING 0,
        LLInputEvent.mouse MODE_SITTING 0 1 false]) MODE_SITTING 0).1
      [LLInputEvent.scan MODE_SITTING 0, LLInputEvent.mouse MODE_SITTING 0 1 false])
      MODE_SITTING 0).1.mMouseLevel[1]? = some MOUSE_STATE_SILENT :=
  C5_silent_after_up_dispatch (applyEvents (idleInput 2)
      [LLInputEvent.mouse MODE_SITTING 0 1 true, LLInputEvent.scan MODE_SITTING 0,
        LLInputEvent.mouse MODE_SITTING 0 1 false]) MODE_SITTING MODE_SITTING 0 0 1
    [LLInputEvent.scan MODE_SITTING 0, LLInputEvent.mouse MODE_SITTING 0 1 false]
    (by decide) (by simp)

theorem find?_first {α : Type} (p : α → Bool) (A B : List α) (b : α)
    (hb : p b = true) (hA : ∀ a ∈ A, p a = false) :
    (A ++ b :: B).find? p = some b := by
  have hn : A.find? p = none := by
    rw [List.find?_eq_none]
    intro x hx
    simp [hA x hx]
  rw [List.find?_append, hn]
  simp [List.find?_cons_of_pos, hb]

theorem findKeyBinding_down (T : List LLKeyboardBinding) (key : KEY) (mask : MASK) :
    findKeyBinding T key mask false =
      match T.find? (fun b => (fun k m => k == key && m == mask) b.mKey b.mMask) with
      | some b => some b
      | none => T.find? (fun b => (fun k m => k == key && m == MASK_NONE) b.mKey b.mMask) := by
  unfold findKeyBinding
  simp only [Bool.not_false, Bool.true_or, Bool.and_true]

theorem findKeyBinding_of_exact (T : List LLKeyboardBinding) (key : KEY) (mask : MASK)
    (b : LLKeyboardBinding)
    (h : T.find? (fun b => (fun k m => k == key && m == mask) b.mKey b.mMask) = some b) :
    findKeyBinding T key mask false = some b := by
  rw [findKeyBinding_down, h]

theorem findKeyBinding_first (A B : List LLKeyboardBinding) (b : LLKeyboardBinding)
    (key : KEY) (mask : MASK) (hk : b.mKey = key) (hm : b.mMask = mask)
    (hA : ∀ c ∈ A, ¬ (c.mKey = key ∧ c.mMask = mask)) :
    findKeyBinding (A ++ b :: B) key mask false = some b := by
  apply findKeyBinding_of_exact
  apply find?_first
  · simp [hk, hm]
  · intro c hc
    simpa using hA c hc

theorem findKeyBinding_maskMatches (T : List LLKeyboardBinding) (key : KEY) (mask : MASK)
    (up : Bool) (b : LLKeyboardBinding) (h : findKeyBinding T key mask up = some b) :
    b ∈ T ∧ b.mKey = key ∧ maskMatches b.mMask mask = true := by
  unfold findKeyBinding at h
  cases h1 : T.find? (fun b =>
      b.mKey == key && b.mMask == mask && (!up || b.mFunction.mOnKeyUp)) with
  | some c =>
    rw [h1] at h
    simp only [Option.some.injEq] at h
    subst h
    have hp := List.find?_some h1
    simp only [Bool.and_eq_true, beq_iff_eq] at hp
    exact ⟨List.mem_of_find?_eq_some h1, hp.1.1, by simp [maskMatches, hp.1.2]⟩
  | none =>
    rw [h1] at h
    have hp := List.find?_some h
    simp only [Bool.and_eq_true, beq_iff_eq] at hp
    exact ⟨List.mem_of_find?_eq_some h, hp.1.1, by simp [maskMatches, hp.1.2]⟩

theorem findMouseBinding_first (A B : List LLMouseBinding) (b : LLMouseBinding)
    (mouse : EMouseClickType) (mask : MASK) (flag : Bool)
    (hk : b.mMouse = mouse) (hm : b.mMask = mask)
    (hA : ∀ c ∈ A, ¬ (c.mMouse = mouse ∧ c.mMask = mask)) :
    findMouseBinding (A ++ b :: B) mouse mask flag = some b := by
  unfold findMouseBinding
  have h : (A ++ b :: B).find? (fun c => c.mMouse == mouse && c.mMask == mask) = some b := by
    apply find?_first
    · simp [hk, hm]
    · intro c hc
      simpa using hA c hc
  rw [h]

/-- C9: when the keyboard table of the active mode contains only a zero-mask
(wildcard, ignore-additional-masks) entry for a key, a key-down for that key
matches the entry for every incoming modifier mask - the empty mask and any
other, such as SHIFT - and dispatches its action. -/
theorem C9_wildcard_only_entry_matches_every_mask (s : LLViewerInput)
    (mode : EKeyboardMode) (key : KEY) (e : LLKeyboardBinding) (mask : MASK)
    (htbl : s.mKeyBindings mode = [e]) (hmask : e.mMask = MASK_NONE)
    (hkey : e.mKey = remapKey s mode key) :
    findKeyBinding (s.mKeyBindings mode) (remapKey s mode key) mask false = some e ∧
    scanKey (s.mKeyBindings mode) (remapKey s mode key) mask true false false
      = (true, [e.mFunctionName]) ∧
    handleKey s mode key mask false =
      { mReturn := true, mConsumed := true, mInvoked := [e.mFunctionName] } := by
  have hf : findKeyBinding (s.mKeyBindings mode) (remapKey s mode key) mask false = some e := by
    rw [htbl, findKeyBinding_down]
    by_cases hm : mask = MASK_NONE
    · simp [List.find?_cons, hkey, hmask, hm]
    · have hm' : ¬ (MASK_NONE = mask) := fun h => hm h.symm
      simp [List.find?_cons, hkey, hmask, hm']
  refine ⟨hf, ?_, ?_⟩
  · unfold scanKey; rw [hf]; rfl
  · unfold handleKey scanKey; rw [hf]; rfl

/-- Witness for C9: the zero-mask entry "fly" for key 70 of `flyInput` is
matched by a key-down with mask 4. -/
theorem C9_wildcard_only_entry_matches_every_mask_witness :
    findKeyBinding (flyInput.mKeyBindings MODE_FIRST_PERSON)
      (remapKey flyInput MODE_FIRST_PERSON 70) 4 false
      = some ⟨70, MASK_NONE, ⟨false, false⟩, "fly"⟩ ∧
    scanKey (flyInput.mKeyBindings MODE_FIRST_PERSON)
      (remapKey flyInput MODE_FIRST_PERSON 70) 4 true false false = (true, ["fly"]) ∧
    handleKey flyInput MODE_FIRST_PERSON 70 4 false =
      { mReturn := true, mConsumed := true, mInvoked := ["fly"] } :=
  C9_wildcard_only_entry_matches_every_mask flyInput MODE_FIRST_PERSON 70
    ⟨70, MASK_NONE, ⟨false, false⟩, "fly"⟩ 4 rfl rfl rfl

theorem bindKey_level (env : LLBindEnv) (s : LLViewerInput) (mode : EKeyboardMode) (k : KEY)
    (m : MASK) (n : String) (g : Bool) :
    (bindKey env s mode k m n g).1.mMouseLevel = s.mMouseLevel := by
  unfold bindKey
  cases env.mActions n with
  | none => rfl
  | some f => cases g <;> rfl

theorem bindMouse_level (env : LLBindEnv) (s : LLViewerInput) (mode : EKeyboardMode)
    (c : EMouseClickType) (m : MASK) (n : String) (g : Bool) :
    (bindMouse env s mode c m n g).1.mMouseLevel = s.mMouseLevel := by
  unfold bindMouse
  cases env.mActions n with
  | none => rfl
  | some f => cases g <;> rfl

theorem loadKeyRecord_level (env : LLBindEnv) (mode : EKeyboardMode)
    (acc : LLViewerInput × Nat) (r : LLKeyBindRecord) :
    (loadKeyRecord env mode acc r).1.mMouseLevel = acc.1.mMouseLevel := by
  unfold loadKeyRecord
  cases env.keyFromString r.mKey <;> cases env.maskFromString r.mMask <;>
    simp [bindKey_level]

theorem loadMouseRecord_level (env : LLBindEnv) (mode : EKeyboardMode)
    (acc : LLViewerInput × Nat) (r : LLMouseBindRecord) :
    (loadMouseRecord env mode acc r).1.mMouseLevel = acc.1.mMouseLevel := by
  unfold loadMouseRecord
  cases env.mouseFromString r.mMouse <;> cases env.maskFromString r.mMask <;>
    simp [bindMouse_level]

theorem foldl_level {α : Type} (step : LLViewerInput × Nat → α → LLViewerInput × Nat)
    (h : ∀ acc a, (step acc a).1.mMouseLevel = acc.1.mMouseLevel) (l : List α) :
    ∀ acc, (l.foldl step acc).1.mMouseLevel = acc.1.mMouseLevel := by
  induction l with
  | nil => intro acc; rfl
  | cons a rest ih => intro acc; rw [List.foldl_cons, ih, h]

theorem loadBindingMode_level (env : LLBindEnv) (s : LLViewerInput) (km : KeyMode)
    (mode : EKeyboardMode) :
    (loadBindingMode env s km mode).1.mMouseLevel = s.mMouseLevel := by
  unfold loadBindingMode
  simp only
  rw [foldl_level _ (loadMouseRecord_level env mode), foldl_level _ (loadKeyRecord_level env mode)]

theorem loadModeEntry_level (env : LLBindEnv) (acc : LLViewerInput × Nat)
    (e : String × KeyMode) :
    (loadModeEntry env acc e).1.mMouseLevel = acc.1.mMouseLevel := by
  unfold loadModeEntry
  cases env.modeFromString e.1 with
  | none => rfl
  | some mode => simp [loadBindingMode_level]

theorem loadRemapRecord_level (env : LLBindEnv) (s : LLViewerInput) (r : LLRemapRecord) :
    (loadRemapRecord env s r).mMouseLevel = s.mMouseLevel := by
  unfold loadRemapRecord
  cases env.modeFromString r.mMode <;> cases env.keyFromString r.mFrom <;>
    cases env.keyFromString r.mTo <;> rfl

theorem foldl_remap_level (env : LLBindEnv) (l : List LLRemapRecord) :
    ∀ s, (l.foldl (loadRemapRecord env) s).mMouseLevel = s.mMouseLevel := by
  induction l with
  | nil => intro s; rfl
  | cons a rest ih => intro s; rw [List.foldl_cons, ih, loadRemapRecord_level]

theorem loadBindingsXML_level (env : LLBindEnv) (s : LLViewerInput) (source : Option Keys) :
    (loadBindingsXML env s source).1.mMouseLevel = s.mMouseLevel := by
  unfold loadBindingsXML
  cases source with
  | none => rfl
  | some keys =>
    simp only
    split
    · rfl
    · simp only
      rw [foldl_remap_level, foldl_level _ (loadModeEntry_level env)]
      rfl

theorem resetBindings_congr (s t : LLViewerInput) (h : s.mMouseLevel = t.mMouseLevel) :
    resetBindings s = resetBindings t := by
  simp [resetBindings, h]

/-- C10: loading bindings resets every per-mode table (regular and global
keyboard and mouse tables, key remaps, left-mouse default flags) before
anything is registered - a load starts from the reset router, and a load that
fails leaves the reset router - so for any two sources A and B (and whatever
parsers and action registry) the router state and the returned count after
loading A and then B equal those after loading B alone. -/
theorem C10_load_replaces_prior_state (envA envB : LLBindEnv) (s : LLViewerInput)
    (A B : Option Keys) :
    loadBindingsXML envB (loadBindingsXML envA s A).1 B = loadBindingsXML envB s B ∧
    loadBindingsXML envB s B = loadBindingsXML envB (resetBindings s) B ∧
    loadBindingsXML envB s none = (resetBindings s, 0) := by
  have key : ∀ t u : LLViewerInput, t.mMouseLevel = u.mMouseLevel →
      loadBindingsXML envB t B = loadBindingsXML envB u B := by
    intro t u h
    unfold loadBindingsXML
    rw [resetBindings_congr t u h]
  exact ⟨key _ _ (loadBindingsXML_level envA s A), key _ _ rfl, rfl⟩

theorem bindKey_keyTable (env : LLBindEnv) (s : LLViewerInput) (mode : EKeyboardMode)
    (k : KEY) (m : MASK) (n : String) (g : Bool) (M : EKeyboardMode) (G : Bool) :
    keyTable (bindKey env s mode k m n g).1 M G =
      match env.mActions n with
      | some f =>
        if mode = M ∧ g = G then bindKeyTable (keyTable s M G) k m f n else keyTable s M G
      | none => keyTable s M G := by
  unfold bindKey
  cases env.mActions n with
  | none => rfl
  | some f =>
    by_cases hm : mode = M
    · subst hm
      cases g <;> cases G <;> simp [keyTable]
    · cases g <;> cases G <;> simp [keyTable, hm, Function.update_noteq (Ne.symm hm)]

theorem bindMouse_keyTable (env : LLBindEnv) (s : LLViewerInput) (mode : EKeyboardMode)
    (c : EMouseClickType) (m : MASK) (n : String) (g : Bool) (M : EKeyboardMode) (G : Bool) :
    keyTable (bindMouse env s mode c m n g).1 M G = keyTable s M G := by
  unfold bindMouse
  cases env.mActions n with
  | none => rfl
  | some f => cases g <;> rfl

theorem loadKeyRecord_keyTable (env : LLBindEnv) (mode : EKeyboardMode)
    (acc : LLViewerInput × Nat) (r : LLKeyBindRecord) (M : EKeyboardMode) (G : Bool) :
    keyTable (loadKeyRecord env mode acc r).1 M G =
      if mode = M then
        match keyRecordBinding env G r with
        | some b => registerKey (keyTable acc.1 M G) b
        | none => keyTable acc.1 M G
      else keyTable acc.1 M G := by
  unfold loadKeyRecord keyRecordBinding
  cases hk : env.keyFromString r.mKey <;> cases hm : env.maskFromString r.mMask <;>
    simp only [bindKey_keyTable]
  · split <;> rfl
  · split <;> rfl
  · split <;> rfl
  · cases ha : env.mActions r.mCommand with
    | none => simp
    | some f =>
      by_cases hmode : mode = M
      · by_cases hg : r.mGlobal = G
        · simp [hmode, hg, registerKey]
        · simp [hmode, hg]
      · simp [hmode]

theorem foldl_loadKeyRecord_keyTable (env : LLBindEnv) (mode : EKeyboardMode)
    (M : EKeyboardMode) (G : Bool) (recs : List LLKeyBindRecord) :
    ∀ acc : LLViewerInput × Nat,
      keyTable (recs.foldl (loadKeyRecord env mode) acc).1 M G =
        if mode = M then
          (recs.filterMap (keyRecordBinding env G)).foldl registerKey (keyTable acc.1 M G)
        else keyTable acc.1 M G := by
  induction recs with
  | nil => intro acc; simp
  | cons r rest ih =>
    intro acc
    rw [List.foldl_cons, ih, loadKeyRecord_keyTable]
    by_cases hmode : mode = M
    · simp only [hmode, if_true]
      cases hb : keyRecordBinding env G r with
      | none => simp [List.filterMap_cons, hb]
      | some b => simp [List.filterMap_cons, hb]
    · simp [hmode]

theorem foldl_loadMouseRecord_keyTable (env : LLBindEnv) (mode : EKeyboardMode)
    (M : EKeyboardMode) (G : Bool) (recs : List LLMouseBindRecord) :
    ∀ acc : LLViewerInput × Nat,
      keyTable (recs.foldl (loadMouseRecord env mode) acc).1 M G = keyTable acc.1 M G := by
  induction recs with
  | nil => intro acc; rfl
  | cons r rest ih =>
    intro acc
    rw [List.foldl_cons, ih]
    unfold loadMouseRecord
    cases env.mouseFromString r.mMouse <;> cases env.maskFromString r.mMask <;>
      simp [bindMouse_keyTable]

theorem loadBindingMode_keyTable (env : LLBindEnv) (s : LLViewerInput) (km : KeyMode)
    (mode : EKeyboardMode) (M : EKeyboardMode) (G : Bool) :
    keyTable (loadBindingMode env s km mode).1 M G =
      if mode = M then
        (km.mKeys.filterMap (keyRecordBinding env G)).foldl registerKey (keyTable s M G)
      else keyTable s M G := by
  have h := foldl_loadKeyRecord_keyTable env mode M G km.mKeys (s, 0)
  have h2 := foldl_loadMouseRecord_keyTable env mode M G km.mMouse
    (km.mKeys.foldl (loadKeyRecord env mode) (s, 0))
  rw [← h, ← h2]
  cases G <;> rfl

theorem loadModeEntry_keyTable (env : LLBindEnv) (acc : LLViewerInput × Nat)
    (e : String × KeyMode) (M : EKeyboardMode) (G : Bool) :
    keyTable (loadModeEntry env acc e).1 M G =
      if env.modeFromString e.1 = some M then
        (e.2.mKeys.filterMap (keyRecordBinding env G)).foldl registerKey (keyTable acc.1 M G)
      else keyTable acc.1 M G := by
  unfold loadModeEntry
  cases hm : env.modeFromString e.1 with
  | none => simp
  | some mode => simp [loadBindingMode_keyTable]

theorem foldl_loadModeEntry_keyTable (env : LLBindEnv) (M : EKeyboardMode) (G : Bool)
    (modes : List (String × KeyMode)) :
    ∀ acc : LLViewerInput × Nat,
      keyTable (modes.foldl (loadModeEntry env) acc).1 M G =
        ((modes.filter (fun e => env.modeFromString e.1 == some M)).flatMap (fun e =>
          e.2.mKeys.filterMap (keyRecordBinding env G))).foldl registerKey
          (keyTable acc.1 M G) := by
  induction modes with
  | nil => intro acc; rfl
  | cons e rest ih =>
    intro acc
    rw [List.foldl_cons, ih, loadModeEntry_keyTable]
    by_cases hm : env.modeFromString e.1 = some M
    · simp [hm, List.filter_cons, List.flatMap_cons, List.foldl_append]
    · simp [hm, List.filter_cons]

theorem foldl_remap_keyTable (env : LLBindEnv) (M : EKeyboardMode) (G : Bool)
    (l : List LLRemapRecord) :
    ∀ s, keyTable (l.foldl (loadRemapRecord env) s) M G = keyTable s M G := by
  induction l with
  | nil => intro s; rfl
  | cons r rest ih =>
    intro s
    rw [List.foldl_cons, ih]
    unfold loadRemapRecord
    cases env.modeFromString r.mMode <;> cases env.keyFromString r.mFrom <;>
      cases env.keyFromString r.mTo <;> cases G <;> rfl

theorem loadBindingsXML_keyTable (env : LLBindEnv) (s : LLViewerInput) (keys : Keys)
    (hv : keys.xml_version ≤ keybindings_xml_version) (M : EKeyboardMode) (G : Bool) :
    keyTable (loadBindingsXML env s (some keys)).1 M G =
      (keyRegistrations env keys M G).foldl registerKey [] := by
  unfold loadBindingsXML
  simp only [if_neg (Nat.not_lt.mpr hv)]
  rw [foldl_remap_keyTable, foldl_loadModeEntry_keyTable]
  unfold keyRegistrations
  cases G <;> rfl

theorem overwriteKeyBinding_none (k : KEY) (m : MASK) (f : LLKeyFunc) (n : String) :
    ∀ T : List LLKeyboardBinding, overwriteKeyBinding k m f n T = none →
      ∀ b ∈ T, ¬ (b.mKey = k ∧ b.mMask = m) := by
  intro T
  induction T with
  | nil => intro _ b hb; exact absurd hb (List.not_mem_nil b)
  | cons a rest ih =>
    intro h b hb
    unfold overwriteKeyBinding at h
    rcases Bool.eq_false_or_eq_true (a.mKey == k && a.mMask == m) with ha | ha
    · rw [ha] at h; simp at h
    · rw [ha] at h
      simp only [Bool.false_eq_true, if_false, Option.map_eq_none'] at h
      rcases List.mem_cons.mp hb with rfl | hb'
      · simpa using ha
      · exact ih h b hb'

theorem map_find_overwrite_id (p : KEY → MASK → Bool) (k : KEY) (m : MASK) (f : LLKeyFunc)
    (n : String) (T : List LLKeyboardBinding) (hp : p k m = false) :
    (T.find? (fun b => p b.mKey b.mMask)).map (fun b =>
        if b.mKey = k ∧ b.mMask = m then { b with mFunction := f, mFunctionName := n }
        else b) = T.find? (fun b => p b.mKey b.mMask) := by
  cases hfind : T.find? (fun b => p b.mKey b.mMask) with
  | none => rfl
  | some b =>
    have hb : p b.mKey b.mMask = true := by simpa using List.find?_some hfind
    have hne : ¬ (b.mKey = k ∧ b.mMask = m) := by
      rintro ⟨h1, h2⟩
      rw [h1, h2, hp] at hb
      exact Bool.noConfusion hb
    simp [hne]

theorem overwriteKeyBinding_find (p : KEY → MASK → Bool) (k : KEY) (m : MASK) (f : LLKeyFunc)
    (n : String) :
    ∀ T T' : List LLKeyboardBinding, overwriteKeyBinding k m f n T = some T' →
      T'.find? (fun b => p b.mKey b.mMask) =
        (T.find? (fun b => p b.mKey b.mMask)).map (fun b =>
          if b.mKey = k ∧ b.mMask = m then { b with mFunction := f, mFunctionName := n }
          else b) := by
  intro T
  induction T with
  | nil => intro T' h; simp [overwriteKeyBinding] at h
  | cons a rest ih =>
    intro T' h
    unfold overwriteKeyBinding at h
    rcases Bool.eq_false_or_eq_true (a.mKey == k && a.mMask == m) with ha | ha
    · rw [ha] at h
      simp only [if_true, Option.some.injEq] at h
      subst h
      have ha' : a.mKey = k ∧ a.mMask = m := by simpa using ha
      rcases Bool.eq_false_or_eq_true (p a.mKey a.mMask) with hp | hp
      · have hp' : p k m = true := by rw [← ha'.1, ← ha'.2]; exact hp
        simp [List.find?_cons, hp, hp', ha']
      · have hp' : p k m = false := by rw [← ha'.1, ← ha'.2]; exact hp
        rw [map_find_overwrite_id p k m f n _ hp']
        simp [List.find?_cons, hp, hp']
    · rw [ha] at h
      simp only [Bool.false_eq_true, if_false] at h
      cases hr : overwriteKeyBinding k m f n rest with
      | none => simp [hr] at h
      | some R =>
        simp only [hr, Option.map_some', Option.some.injEq] at h
        subst h
        have ha' : ¬ (a.mKey = k ∧ a.mMask = m) := by simpa using ha
        rcases Bool.eq_false_or_eq_true (p a.mKey a.mMask) with hp | hp
        · simp [List.find?_cons, hp, ha']
        · simp [List.find?_cons, hp, ih R hr]

theorem registerKey_find (p : KEY → MASK → Bool) (T : List LLKeyboardBinding)
    (r : LLKeyboardBinding) :
    (registerKey T r).find? (fun b => p b.mKey b.mMask) =
      match T.find? (fun b => p b.mKey b.mMask) with
      | some b => some (if b.mKey = r.mKey ∧ b.mMask = r.mMask then
          { b with mFunction := r.mFunction, mFunctionName := r.mFunctionName } else b)
      | none => if p r.mKey r.mMask then some r else none := by
  unfold registerKey bindKeyTable
  cases ho : overwriteKeyBinding r.mKey r.mMask r.mFunction r.mFunctionName T with
  | some T' =>
    simp only
    rw [overwriteKeyBinding_find p _ _ _ _ T T' ho]
    cases hfind : T.find? (fun b => p b.mKey b.mMask) with
    | some b => simp
    | none =>
      simp only [Option.map_none']
      have hn := overwriteKeyBinding_find (fun k m => k == r.mKey && m == r.mMask)
        _ _ _ _ T T' ho
      by_cases hp : p r.mKey r.mMask = true
      · -- the overwritten entry satisfies p, so the search cannot have failed
        exfalso
        have hex : ∃ b ∈ T, b.mKey = r.mKey ∧ b.mMask = r.mMask := by
          by_contra hcon
          push_neg at hcon
          have : ∀ T0 : List LLKeyboardBinding, (∀ b ∈ T0, b.mKey = r.mKey → b.mMask ≠ r.mMask) →
              overwriteKeyBinding r.mKey r.mMask r.mFunction r.mFunctionName T0 = none := by
            intro T0
            induction T0 with
            | nil => intro _; rfl
            | cons a rest ih =>
              intro h0
              unfold overwriteKeyBinding
              have ha : ¬ (a.mKey = r.mKey ∧ a.mMask = r.mMask) :=
                fun hh => h0 a (List.mem_cons_self _ _) hh.1 hh.2
              have ha' : (a.mKey == r.mKey && a.mMask == r.mMask) = false := by
                simpa using ha
              rw [ha', ih (fun b hb => h0 b (List.mem_cons_of_mem _ hb))]
              rfl
          rw [this T hcon] at ho
          exact Option.noConfusion ho
        obtain ⟨b, hb, hbk, hbm⟩ := hex
        rw [List.find?_eq_none] at hfind
        exact hfind b hb (by rw [hbk, hbm]; exact hp)
      · simp [hp]
  | none =>
    simp only
    have hno := overwriteKeyBinding_none _ _ _ _ T ho
    rw [List.find?_append]
    cases hfind : T.find? (fun b => p b.mKey b.mMask) with
    | some b =>
      have hb := List.mem_of_find?_eq_some hfind
      have := hno b hb
      simp [this]
    | none =>
      by_cases hp : p r.mKey r.mMask = true
      · simp [List.find?_cons, hp]
      · simp [List.find?_cons, hp]

theorem registerKey_find_set (p : KEY → MASK → Bool) (T : List LLKeyboardBinding)
    (r : LLKeyboardBinding) (hp : p r.mKey r.mMask = true)
    (hT : T.find? (fun b => p b.mKey b.mMask) = none ∨
      ∃ b, T.find? (fun b => p b.mKey b.mMask) = some b ∧ b.mKey = r.mKey ∧ b.mMask = r.mMask) :
    (registerKey T r).find? (fun b => p b.mKey b.mMask) = some r := by
  rw [registerKey_find]
  rcases hT with h | ⟨b, h, hk, hm⟩
  · rw [h]; simp [hp]
  · rw [h]
    simp only [hk, hm, and_self, if_true]

theorem registerKey_find_keep (p : KEY → MASK → Bool) (T : List LLKeyboardBinding)
    (r b : LLKeyboardBinding)
    (hT : T.find? (fun b => p b.mKey b.mMask) = some b)
    (hne : ¬ (r.mKey = b.mKey ∧ r.mMask = b.mMask)) :
    (registerKey T r).find? (fun b => p b.mKey b.mMask) = some b := by
  rw [registerKey_find, hT]
  have : ¬ (b.mKey = r.mKey ∧ b.mMask = r.mMask) := fun h => hne ⟨h.1.symm, h.2.symm⟩
  simp [this]

theorem foldl_registerKey_find_keep (p : KEY → MASK → Bool) (b : LLKeyboardBinding)
    (L : List LLKeyboardBinding)
    (hL : ∀ r ∈ L, ¬ (r.mKey = b.mKey ∧ r.mMask = b.mMask)) :
    ∀ T : List LLKeyboardBinding, T.find? (fun b => p b.mKey b.mMask) = some b →
      (L.foldl registerKey T).find? (fun b => p b.mKey b.mMask) = some b := by
  induction L with
  | nil => intro T h; exact h
  | cons r rest ih =>
    intro T h
    rw [List.foldl_cons]
    exact ih (fun r' hr' => hL r' (List.mem_cons_of_mem _ hr')) _
      (registerKey_find_keep p T r b h (hL r (List.mem_cons_self _ _)))

theorem foldl_registerKey_find_none (p : KEY → MASK → Bool) (L : List LLKeyboardBinding)
    (hL : ∀ r ∈ L, p r.mKey r.mMask = false) :
    ∀ T : List LLKeyboardBinding, T.find? (fun b => p b.mKey b.mMask) = none →
      (L.foldl registerKey T).find? (fun b => p b.mKey b.mMask) = none := by
  induction L with
  | nil => intro T h; exact h
  | cons r rest ih =>
    intro T h
    rw [List.foldl_cons]
    apply ih (fun r' hr' => hL r' (List.mem_cons_of_mem _ hr'))
    rw [registerKey_find, h]
    simp [hL r (List.mem_cons_self _ _)]

theorem foldl_registerKey_find_good (p : KEY → MASK → Bool) (key : KEY) (mask : MASK)
    (L : List LLKeyboardBinding) :
    ∀ T : List LLKeyboardBinding,
      (∃ b, T.find? (fun b => p b.mKey b.mMask) = some b ∧ b.mKey = key ∧ b.mMask = mask) →
      ∃ b, (L.foldl registerKey T).find? (fun b => p b.mKey b.mMask) = some b ∧
        b.mKey = key ∧ b.mMask = mask := by
  induction L with
  | nil => intro T h; exact h
  | cons r rest ih =>
    intro T h
    rw [List.foldl_cons]
    apply ih
    obtain ⟨b, hb, hk, hm⟩ := h
    rw [registerKey_find, hb]
    by_cases hc : b.mKey = r.mKey ∧ b.mMask = r.mMask
    · refine ⟨{ b with mFunction := r.mFunction, mFunctionName := r.mFunctionName }, ?_, hk, hm⟩
      simp only [if_pos hc]
    · exact ⟨b, by simp only [if_neg hc], hk, hm⟩

/-- Search result after the registrations `mid`, the registration `r2` and the
registrations `post`, none of which re-registers the pair of `r2`, starting
from a table whose search finds an entry of that pair. -/
theorem foldl_registerKey_find_last (p : KEY → MASK → Bool) (r2 : LLKeyboardBinding)
    (hp : p r2.mKey r2.mMask = true) (mid post : List LLKeyboardBinding)
    (hpost : ∀ r ∈ post, ¬ (r.mKey = r2.mKey ∧ r.mMask = r2.mMask))
    (T : List LLKeyboardBinding)
    (hT : ∃ b, T.find? (fun b => p b.mKey b.mMask) = some b ∧
      b.mKey = r2.mKey ∧ b.mMask = r2.mMask) :
    ((mid ++ r2 :: post).foldl registerKey T).find? (fun b => p b.mKey b.mMask) = some r2 := by
  rw [List.foldl_append, List.foldl_cons]
  apply foldl_registerKey_find_keep p r2 post hpost
  apply registerKey_find_set p _ r2 hp
  exact Or.inr (foldl_registerKey_find_good p r2.mKey r2.mMask mid T hT)

theorem overwriteKeyBinding_keys (k : KEY) (m : MASK) (f : LLKeyFunc) (n : String) :
    ∀ T T' : List LLKeyboardBinding, overwriteKeyBinding k m f n T = some T' →
      T'.map (fun b => (b.mKey, b.mMask)) = T.map (fun b => (b.mKey, b.mMask)) := by
  intro T
  induction T with
  | nil => intro T' h; simp [overwriteKeyBinding] at h
  | cons a rest ih =>
    intro T' h
    unfold overwriteKeyBinding at h
    rcases Bool.eq_false_or_eq_true (a.mKey == k && a.mMask == m) with ha | ha
    · rw [ha] at h
      simp only [if_true, Option.some.injEq] at h
      subst h
      rfl
    · rw [ha] at h
      simp only [Bool.false_eq_true, if_false] at h
      cases hr : overwriteKeyBinding k m f n rest with
      | none => simp [hr] at h
      | some R =>
        simp only [hr, Option.map_some', Option.some.injEq] at h
        subst h
        simp [ih R hr]

theorem countP_keys (key : KEY) (mask : MASK) (T : List LLKeyboardBinding) :
    T.countP (fun b => b.mKey == key && b.mMask == mask) =
      (T.map (fun b => (b.mKey, b.mMask))).countP (fun x => x.1 == key && x.2 == mask) := by
  rw [List.countP_map]
  rfl

theorem registerKey_countP (key : KEY) (mask : MASK) (T : List LLKeyboardBinding)
    (r : LLKeyboardBinding)
    (h : T.countP (fun b => b.mKey == key && b.mMask == mask) ≤ 1) :
    (registerKey T r).countP (fun b => b.mKey == key && b.mMask == mask) ≤ 1 := by
  unfold registerKey bindKeyTable
  cases ho : overwriteKeyBinding r.mKey r.mMask r.mFunction r.mFunctionName T with
  | some T' =>
    simp only
    rw [countP_keys, overwriteKeyBinding_keys _ _ _ _ T T' ho, ← countP_keys]
    exact h
  | none =>
    simp only
    have hno := overwriteKeyBinding_none _ _ _ _ T ho
    rw [List.countP_append]
    by_cases hr : r.mKey = key ∧ r.mMask = mask
    · have h0 : T.countP (fun b => b.mKey == key && b.mMask == mask) = 0 := by
        rw [List.countP_eq_zero]
        intro b hb
        have := hno b hb
        rw [hr.1, hr.2] at this
        simpa using this
      rw [h0]
      simp [List.countP_cons, hr.1, hr.2]
    · have : (r.mKey == key && r.mMask == mask) = false := by simpa using hr
      simp [List.countP_cons, this]
      exact h

theorem foldl_registerKey_countP (key : KEY) (mask : MASK) (L : List LLKeyboardBinding) :
    ∀ T : List LLKeyboardBinding, T.countP (fun b => b.mKey == key && b.mMask == mask) ≤ 1 →
      (L.foldl registerKey T).countP (fun b => b.mKey == key && b.mMask == mask) ≤ 1 := by
  induction L with
  | nil => intro T h; exact h
  | cons r rest ih => intro T h; exact ih _ (registerKey_countP key mask T r h)

theorem filter_eq_singleton {α : Type} (q : α → Bool) (T : List α) (e : α)
    (hfind : T.find? q = some e) (hcount : T.countP q ≤ 1) : T.filter q = [e] := by
  have hhead : (T.filter q).head? = some e := by rw [List.filter_head?]; exact hfind
  have hlen : (T.filter q).length ≤ 1 := by rw [← List.countP_eq_length_filter]; exact hcount
  cases hf : T.filter q with
  | nil => rw [hf] at hhead; simp at hhead
  | cons x xs =>
    rw [hf] at hhead hlen
    simp only [List.head?_cons, Option.some.injEq] at hhead
    simp only [List.length_cons] at hlen
    have : xs = [] := List.eq_nil_of_length_eq_zero (by omega)
    rw [hhead, this]

theorem scanKey_invoked_length (tbl : List LLKeyboardBinding) (key : KEY) (mask : MASK)
    (dn up rep : Bool) : (scanKey tbl key mask dn up rep).2.length ≤ 1 := by
  unfold scanKey
  cases findKeyBinding tbl key mask up with
  | none => simp
  | some b =>
    by_cases hu : up = true
    · simp [hu]
    · by_cases hd : (dn && (!rep || b.mFunction.mOnRepeat)) = true
      · simp [hu, hd]
      · simp [hu, hd]

/-- C7: when a binding configuration registers two actions for the same
(mode, key, mask) in the same table (regular or global), the later
registration overwrites the earlier one: after loading, the table holds
exactly one entry for that (key, mask), it names the last-loaded action, every
key-down dispatches at most one action, and a key-down whose remapped key and
mask are that (key, mask) dispatches exactly the last-loaded action, not both
and not the earlier one. -/
theorem C7_duplicate_binding_last_wins (env : LLBindEnv) (s : LLViewerInput) (keys : Keys)
    (M : EKeyboardMode) (G : Bool) (key : KEY) (mask : MASK) (f1 f2 : LLKeyFunc)
    (a1 a2 : String) (pre mid post : List LLKeyboardBinding)
    (hv : keys.xml_version ≤ keybindings_xml_version)
    (hregs : keyRegistrations env keys M G =
      pre ++ { mKey := key, mMask := mask, mFunction := f1, mFunctionName := a1 } ::
        (mid ++ { mKey := key, mMask := mask, mFunction := f2, mFunctionName := a2 } :: post))
    (hpost : ∀ r ∈ post, ¬ (r.mKey = key ∧ r.mMask = mask)) :
    (keyTable (loadBindingsXML env s (some keys)).1 M G).filter
        (fun b => b.mKey == key && b.mMask == mask)
      = [{ mKey := key, mMask := mask, mFunction := f2, mFunctionName := a2 }] ∧
    (∀ k mask' repeated,
      (handleKey (loadBindingsXML env s (some keys)).1 M k mask' repeated).mInvoked.length ≤ 1) ∧
    scanKey (keyTable (loadBindingsXML env s (some keys)).1 M G) key mask true false false
      = (true, [a2]) ∧
    (G = false → ∀ k, remapKey (loadBindingsXML env s (some keys)).1 M k = key →
      handleKey (loadBindingsXML env s (some keys)).1 M k mask false =
        { mReturn := true, mConsumed := true, mInvoked := [a2] }) ∧
    (G = true → ∀ k, remapKey (loadBindingsXML env s (some keys)).1 M k = key →
      handleGlobalBindsKeyDown (loadBindingsXML env s (some keys)).1 M k mask =
        { mReturn := true, mConsumed := false, mInvoked := [a2] }) := by
  have htbl := loadBindingsXML_keyTable env s keys hv M G
  rw [hregs, List.foldl_append, List.foldl_cons] at htbl
  have hexact : (keyTable (loadBindingsXML env s (some keys)).1 M G).find?
      (fun b => (fun k m => k == key && m == mask) b.mKey b.mMask) =
      some { mKey := key, mMask := mask, mFunction := f2, mFunctionName := a2 } := by
    rw [htbl]
    apply foldl_registerKey_find_last (fun k m => k == key && m == mask)
      { mKey := key, mMask := mask, mFunction := f2, mFunctionName := a2 } (by simp)
      mid post hpost
    refine ⟨_, registerKey_find_set (fun k m => k == key && m == mask) _
      { mKey := key, mMask := mask, mFunction := f1, mFunctionName := a1 } (by simp) ?_,
      rfl, rfl⟩
    cases hfind : (pre.foldl registerKey []).find?
        (fun b => (fun k m => k == key && m == mask) b.mKey b.mMask) with
    | none => exact Or.inl rfl
    | some b =>
      have hb := List.find?_some hfind
      simp only [Bool.and_eq_true, beq_iff_eq] at hb
      exact Or.inr ⟨b, rfl, hb.1, hb.2⟩
  have hscan : scanKey (keyTable (loadBindingsXML env s (some keys)).1 M G) key mask
      true false false = (true, [a2]) := by
    unfold scanKey
    rw [findKeyBinding_of_exact _ _ _ _ hexact]
    rfl
  refine ⟨?_, ?_, hscan, ?_, ?_⟩
  · apply filter_eq_singleton
    · exact hexact
    · rw [loadBindingsXML_keyTable env s keys hv M G]
      exact foldl_registerKey_countP key mask _ [] (by simp)
  · intro k mask' repeated
    exact scanKey_invoked_length _ _ _ _ _ _
  · intro hG k hk
    subst hG
    simp only [keyTable, Bool.false_eq_true, if_false] at hscan
    simp only [handleKey, hk, hscan]
  · intro hG k hk
    subst hG
    simp only [keyTable, if_true] at hscan
    simp only [handleGlobalBindsKeyDown, hk, hscan]

/-- Witness for C7: `duplicateKeys` registers "jump" and then "run" for
(third-person, key 88, mask 1); after loading, the table holds the single
entry "run" and the key-down dispatches "run" only.  The same holds for
`wildcardDuplicateKeys`, where a zero-mask entry for key 88 was registered
before the two. -/
theorem C7_duplicate_binding_last_wins_witness :
    (keyTable (loadBindingsXML exampleEnv (idleInput 2) (some duplicateKeys)).1
        MODE_THIRD_PERSON false).filter (fun b => b.mKey == 88 && b.mMask == 1)
      = [{ mKey := 88, mMask := 1, mFunction := ⟨false, false⟩, mFunctionName := "run" }] ∧
    handleKey (loadBindingsXML exampleEnv (idleInput 2) (some duplicateKeys)).1
        MODE_THIRD_PERSON 88 1 false =
      { mReturn := true, mConsumed := true, mInvoked := ["run"] } ∧
    handleKey (loadBindingsXML exampleEnv (idleInput 2) (some wildcardDuplicateKeys)).1
        MODE_THIRD_PERSON 88 1 false =
      { mReturn := true, mConsumed := true, mInvoked := ["run"] } :=
  have h := C7_duplicate_binding_last_wins exampleEnv (idleInput 2) duplicateKeys
    MODE_THIRD_PERSON false 88 1 ⟨false, false⟩ ⟨false, false⟩ "jump" "run" [] [] []
    (by decide) (by decide) (fun r hr => absurd hr (List.not_mem_nil r))
  have h2 := C7_duplicate_binding_last_wins exampleEnv (idleInput 2) wildcardDuplicateKeys
    MODE_THIRD_PERSON false 88 1 ⟨false, false⟩ ⟨false, false⟩ "jump" "run"
    [⟨88, MASK_NONE, ⟨false, false⟩, "fly"⟩] [] []
    (by decide) (by decide) (fun r hr => absurd hr (List.not_mem_nil r))
  ⟨h.1, h.2.2.2.1 rfl 88 (by decide), h2.2.2.2.1 rfl 88 (by decide)⟩

/-! ### Loading recovers from bad entries; modes and per-mode slots -/

theorem bindKey_mouseTable (env : LLBindEnv) (s : LLViewerInput) (mode : EKeyboardMode)
    (k : KEY) (m : MASK) (n : String) (g : Bool) (M : EKeyboardMode) (G : Bool) :
    mouseTable (bindKey env s mode k m n g).1 M G = mouseTable s M G := by
  unfold bindKey
  cases env.mActions n with
  | none => rfl
  | some f => cases g <;> rfl

theorem bindMouse_mouseTable (env : LLBindEnv) (s : LLViewerInput) (mode : EKeyboardMode)
    (c : EMouseClickType) (m : MASK) (n : String) (g : Bool) (M : EKeyboardMode) (G : Bool) :
    mouseTable (bindMouse env s mode c m n g).1 M G =
      match env.mActions n with
      | some f =>
        if mode = M ∧ g = G then bindMouseTable (mouseTable s M G) c m f n
        else mouseTable s M G
      | none => mouseTable s M G := by
  unfold bindMouse
  cases env.mActions n with
  | none => rfl
  | some f =>
    by_cases hm : mode = M
    · subst hm
      cases g <;> cases G <;> simp [mouseTable]
    · cases g <;> cases G <;> simp [mouseTable, hm, Function.update_noteq (Ne.symm hm)]

theorem foldl_loadKeyRecord_mouseTable (env : LLBindEnv) (mode : EKeyboardMode)
    (M : EKeyboardMode) (G : Bool) (recs : List LLKeyBindRecord) :
    ∀ acc : LLViewerInput × Nat,
      mouseTable (recs.foldl (loadKeyRecord env mode) acc).1 M G = mouseTable acc.1 M G := by
  induction recs with
  | nil => intro acc; rfl
  | cons r rest ih =>
    intro acc
    rw [List.foldl_cons, ih]
    unfold loadKeyRecord
    cases env.keyFromString r.mKey <;> cases env.maskFromString r.mMask <;>
      simp [bindKey_mouseTable]

theorem loadMouseRecord_mouseTable (env : LLBindEnv) (mode : EKeyboardMode)
    (acc : LLViewerInput × Nat) (r : LLMouseBindRecord) (M : EKeyboardMode) (G : Bool) :
    mouseTable (loadMouseRecord env mode acc r).1 M G =
      if mode = M then
        match mouseRecordBinding env G r with
        | some b => registerMouse (mouseTable acc.1 M G) b
        | none => mouseTable acc.1 M G
      else mouseTable acc.1 M G := by
  unfold loadMouseRecord mouseRecordBinding
  cases hk : env.mouseFromString r.mMouse <;> cases hm : env.maskFromString r.mMask <;>
    simp only [bindMouse_mouseTable]
  · split <;> rfl
  · split <;> rfl
  · split <;> rfl
  · cases ha : env.mActions r.mCommand with
    | none => simp
    | some f =>
      by_cases hmode : mode = M
      · by_cases hg : r.mGlobal = G
        · simp [hmode, hg, registerMouse]
        · simp [hmode, hg]
      · simp [hmode]

theorem foldl_loadMouseRecord_mouseTable (env : LLBindEnv) (mode : EKeyboardMode)
    (M : EKeyboardMode) (G : Bool) (recs : List LLMouseBindRecord) :
    ∀ acc : LLViewerInput × Nat,
      mouseTable (recs.foldl (loadMouseRecord env mode) acc).1 M G =
        if mode = M then
          (recs.filterMap (mouseRecordBinding env G)).foldl registerMouse (mouseTable acc.1 M G)
        else mouseTable acc.1 M G := by
  induction recs with
  | nil => intro acc; simp
  | cons r rest ih =>
    intro acc
    rw [List.foldl_cons, ih, loadMouseRecord_mouseTable]
    by_cases hmode : mode = M
    · simp only [hmode, if_true]
      cases hb : mouseRecordBinding env G r with
      | none => simp [List.filterMap_cons, hb]
      | some b => simp [List.filterMap_cons, hb]
    · simp [hmode]

theorem loadBindingMode_mouseTable (env : LLBindEnv) (s : LLViewerInput) (km : KeyMode)
    (mode : EKeyboardMode) (M : EKeyboardMode) (G : Bool) :
    mouseTable (loadBindingMode env s km mode).1 M G =
      if mode = M then
        (km.mMouse.filterMap (mouseRecordBinding env G)).foldl registerMouse (mouseTable s M G)
      else mouseTable s M G := by
  have h := foldl_loadKeyRecord_mouseTable env mode M G km.mKeys (s, 0)
  have h2 := foldl_loadMouseRecord_mouseTable env mode M G km.mMouse
    (km.mKeys.foldl (loadKeyRecord env mode) (s, 0))
  rw [h] at h2
  rw [← h2]
  cases G <;> rfl

theorem loadModeEntry_mouseTable (env : LLBindEnv) (acc : LLViewerInput × Nat)
    (e : String × KeyMode) (M : EKeyboardMode) (G : Bool) :
    mouseTable (loadModeEntry env acc e).1 M G =
      if env.modeFromString e.1 = some M then
        (e.2.mMouse.filterMap (mouseRecordBinding env G)).foldl registerMouse
          (mouseTable acc.1 M G)
      else mouseTable acc.1 M G := by
  unfold loadModeEntry
  cases hm : env.modeFromString e.1 with
  | none => simp
  | some mode => simp [loadBindingMode_mouseTable]

theorem foldl_loadModeEntry_mouseTable (env : LLBindEnv) (M : EKeyboardMode) (G : Bool)
    (modes : List (String × KeyMode)) :
    ∀ acc : LLViewerInput × Nat,
      mouseTable (modes.foldl (loadModeEntry env) acc).1 M G =
        ((modes.filter (fun e => env.modeFromString e.1 == some M)).flatMap (fun e =>
          e.2.mMouse.filterMap (mouseRecordBinding env G))).foldl registerMouse
          (mouseTable acc.1 M G) := by
  induction modes with
  | nil => intro acc; rfl
  | cons e rest ih =>
    intro acc
    rw [List.foldl_cons, ih, loadModeEntry_mouseTable]
    by_cases hm : env.modeFromString e.1 = some M
    · simp [hm, List.filter_cons, List.flatMap_cons, List.foldl_append]
    · simp [hm, List.filter_cons]

theorem foldl_remap_mouseTable (env : LLBindEnv) (M : EKeyboardMode) (G : Bool)
    (l : List LLRemapRecord) :
    ∀ s, mouseTable (l.foldl (loadRemapRecord env) s) M G = mouseTable s M G := by
  induction l with
  | nil => intro s; rfl
  | cons r rest ih =>
    intro s
    rw [List.foldl_cons, ih]
    unfold loadRemapRecord
    cases env.modeFromString r.mMode <;> cases env.keyFromString r.mFrom <;>
      cases env.keyFromString r.mTo <;> cases G <;> rfl

theorem loadBindingsXML_mouseTable (env : LLBindEnv) (s : LLViewerInput) (keys : Keys)
    (hv : keys.xml_version ≤ keybindings_xml_version) (M : EKeyboardMode) (G : Bool) :
    mouseTable (loadBindingsXML env s (some keys)).1 M G =
      (mouseRegistrations env keys M G).foldl registerMouse [] := by
  unfold loadBindingsXML
  simp only [if_neg (Nat.not_lt.mpr hv)]
  rw [foldl_remap_mouseTable, foldl_loadModeEntry_mouseTable]
  unfold mouseRegistrations
  cases G <;> rfl

theorem bindKey_ok (env : LLBindEnv) (s : LLViewerInput) (mode : EKeyboardMode)
    (k : KEY) (m : MASK) (n : String) (g : Bool) :
    (bindKey env s mode k m n g).2 = (env.mActions n).isSome := by
  unfold bindKey
  cases env.mActions n with
  | none => rfl
  | some f => cases g <;> rfl

theorem bindMouse_ok (env : LLBindEnv) (s : LLViewerInput) (mode : EKeyboardMode)
    (c : EMouseClickType) (m : MASK) (n : String) (g : Bool) :
    (bindMouse env s mode c m n g).2 = (env.mActions n).isSome := by
  unfold bindMouse
  cases env.mActions n with
  | none => rfl
  | some f => cases g <;> rfl

theorem loadKeyRecord_count (env : LLBindEnv) (mode : EKeyboardMode)
    (acc : LLViewerInput × Nat) (r : LLKeyBindRecord) :
    (loadKeyRecord env mode acc r).2 = acc.2 + (if keyRecordOk env r then 1 else 0) := by
  unfold loadKeyRecord keyRecordOk
  cases env.keyFromString r.mKey <;> cases env.maskFromString r.mMask <;>
    simp [bindKey_ok]
  cases env.mActions r.mCommand <;> simp

theorem loadMouseRecord_count (env : LLBindEnv) (mode : EKeyboardMode)
    (acc : LLViewerInput × Nat) (r : LLMouseBindRecord) :
    (loadMouseRecord env mode acc r).2 = acc.2 + (if mouseRecordOk env r then 1 else 0) := by
  unfold loadMouseRecord mouseRecordOk
  cases env.mouseFromString r.mMouse <;> cases env.maskFromString r.mMask <;>
    simp [bindMouse_ok]
  cases env.mActions r.mCommand <;> simp

theorem foldl_count {α : Type} (step : LLViewerInput × Nat → α → LLViewerInput × Nat)
    (ok : α → Bool)
    (h : ∀ acc a, (step acc a).2 = acc.2 + (if ok a then 1 else 0)) (l : List α) :
    ∀ acc, (l.foldl step acc).2 = acc.2 + (l.filter ok).length := by
  induction l with
  | nil => intro acc; simp
  | cons a rest ih =>
    intro acc
    rw [List.foldl_cons, ih, h]
    by_cases ha : ok a = true
    · simp [List.filter_cons, ha]; omega
    · simp [List.filter_cons, ha]

theorem loadBindingMode_count (env : LLBindEnv) (s : LLViewerInput) (km : KeyMode)
    (mode : EKeyboardMode) :
    (loadBindingMode env s km mode).2 = blockBoundCount env km := by
  unfold loadBindingMode blockBoundCount
  simp only
  rw [foldl_count _ _ (loadMouseRecord_count env mode),
    foldl_count _ _ (loadKeyRecord_count env mode)]
  simp

theorem loadModeEntry_count (env : LLBindEnv) (acc : LLViewerInput × Nat)
    (e : String × KeyMode) :
    (loadModeEntry env acc e).2 =
      acc.2 + (if (env.modeFromString e.1).isSome then blockBoundCount env e.2 else 0) := by
  unfold loadModeEntry
  cases env.modeFromString e.1 with
  | none => simp
  | some mode => simp [loadBindingMode_count]

theorem foldl_loadModeEntry_count (env : LLBindEnv) (modes : List (String × KeyMode)) :
    ∀ acc : LLViewerInput × Nat,
      (modes.foldl (loadModeEntry env) acc).2 =
        acc.2 + ((modes.filter (fun e => (env.modeFromString e.1).isSome)).map
          (fun e => blockBoundCount env e.2)).sum := by
  induction modes with
  | nil => intro acc; simp
  | cons e rest ih =>
    intro acc
    rw [List.foldl_cons, ih, loadModeEntry_count]
    by_cases hm : (env.modeFromString e.1).isSome = true
    · simp [List.filter_cons, hm]; omega
    · simp [List.filter_cons, hm]

theorem loadBindingsXML_count (env : LLBindEnv) (s : LLViewerInput) (keys : Keys)
    (hv : keys.xml_version ≤ keybindings_xml_version) :
    (loadBindingsXML env s (some keys)).2 = boundCount env keys := by
  unfold loadBindingsXML boundCount
  simp only [if_neg (Nat.not_lt.mpr hv)]
  rw [foldl_loadModeEntry_count]
  simp

theorem overwriteKeyBinding_some_mem (k : KEY) (m : MASK) (f : LLKeyFunc) (n : String) :
    ∀ T T' : List LLKeyboardBinding, overwriteKeyBinding k m f n T = some T' →
      ∃ b ∈ T, b.mKey = k ∧ b.mMask = m := by
  intro T
  induction T with
  | nil => intro T' h; simp [overwriteKeyBinding] at h
  | cons a rest ih =>
    intro T' h
    unfold overwriteKeyBinding at h
    rcases Bool.eq_false_or_eq_true (a.mKey == k && a.mMask == m) with ha | ha
    · exact ⟨a, List.mem_cons_self _ _, by simpa using ha⟩
    · rw [ha] at h
      simp only [Bool.false_eq_true, if_false] at h
      cases hr : overwriteKeyBinding k m f n rest with
      | none => simp [hr] at h
      | some R =>
        obtain ⟨b, hb, hbk⟩ := ih R hr
        exact ⟨b, List.mem_cons_of_mem _ hb, hbk⟩

theorem registerKey_mem (T : List LLKeyboardBinding) (r : LLKeyboardBinding)
    (k : KEY) (m : MASK) :
    (∃ b ∈ registerKey T r, b.mKey = k ∧ b.mMask = m) ↔
      ((∃ b ∈ T, b.mKey = k ∧ b.mMask = m) ∨ (r.mKey = k ∧ r.mMask = m)) := by
  have hmap : ∀ L : List LLKeyboardBinding, (∃ b ∈ L, b.mKey = k ∧ b.mMask = m) ↔
      (k, m) ∈ L.map (fun b => (b.mKey, b.mMask)) := by
    intro L
    simp only [List.mem_map, Prod.mk.injEq]
  unfold registerKey bindKeyTable
  cases ho : overwriteKeyBinding r.mKey r.mMask r.mFunction r.mFunctionName T with
  | some T' =>
    simp only
    rw [hmap T', overwriteKeyBinding_keys _ _ _ _ T T' ho, ← hmap T]
    constructor
    · exact Or.inl
    · rintro (h | ⟨h1, h2⟩)
      · exact h
      · obtain ⟨b, hb, hbk, hbm⟩ := overwriteKeyBinding_some_mem _ _ _ _ T T' ho
        exact ⟨b, hb, hbk.trans h1, hbm.trans h2⟩
  | none =>
    simp only [List.mem_append, List.mem_singleton]
    constructor
    · rintro ⟨b, hb | hb, h⟩
      · exact Or.inl ⟨b, hb, h⟩
      · subst hb; exact Or.inr h
    · rintro (⟨b, hb, h⟩ | h)
      · exact ⟨b, Or.inl hb, h⟩
      · exact ⟨_, Or.inr rfl, h⟩

theorem foldl_registerKey_mem (k : KEY) (m : MASK) (L : List LLKeyboardBinding) :
    ∀ T : List LLKeyboardBinding,
      (∃ b ∈ L.foldl registerKey T, b.mKey = k ∧ b.mMask = m) ↔
        ((∃ b ∈ T, b.mKey = k ∧ b.mMask = m) ∨ (∃ r ∈ L, r.mKey = k ∧ r.mMask = m)) := by
  induction L with
  | nil => intro T; simp
  | cons r rest ih =>
    intro T
    rw [List.foldl_cons, ih, registerKey_mem]
    simp only [List.mem_cons, exists_eq_or_imp, or_assoc]

theorem overwriteMouseBinding_keys (k : EMouseClickType) (m : MASK) (f : LLKeyFunc)
    (n : String) :
    ∀ T T' : List LLMouseBinding, overwriteMouseBinding k m f n T = some T' →
      T'.map (fun b => (b.mMouse, b.mMask)) = T.map (fun b => (b.mMouse, b.mMask)) := by
  intro T
  induction T with
  | nil => intro T' h; simp [overwriteMouseBinding] at h
  | cons a rest ih =>
    intro T' h
    unfold overwriteMouseBinding at h
    rcases Bool.eq_false_or_eq_true (a.mMouse == k && a.mMask == m) with ha | ha
    · rw [ha] at h
      simp only [if_true, Option.some.injEq] at h
      subst h
      rfl
    · rw [ha] at h
      simp only [Bool.false_eq_true, if_false] at h
      cases hr : overwriteMouseBinding k m f n rest with
      | none => simp [hr] at h
      | some R =>
        simp only [hr, Option.map_some', Option.some.injEq] at h
        subst h
        simp [ih R hr]

theorem overwriteMouseBinding_some_mem (k : EMouseClickType) (m : MASK) (f : LLKeyFunc)
    (n : String) :
    ∀ T T' : List LLMouseBinding, overwriteMouseBinding k m f n T = some T' →
      ∃ b ∈ T, b.mMouse = k ∧ b.mMask = m := by
  intro T
  induction T with
  | nil => intro T' h; simp [overwriteMouseBinding] at h
  | cons a rest ih =>
    intro T' h
    unfold overwriteMouseBinding at h
    rcases Bool.eq_false_or_eq_true (a.mMouse == k && a.mMask == m) with ha | ha
    · exact ⟨a, List.mem_cons_self _ _, by simpa using ha⟩
    · rw [ha] at h
      simp only [Bool.false_eq_true, if_false] at h
      cases hr : overwriteMouseBinding k m f n rest with
      | none => simp [hr] at h
      | some R =>
        obtain ⟨b, hb, hbk⟩ := ih R hr
        exact ⟨b, List.mem_cons_of_mem _ hb, hbk⟩

theorem registerMouse_mem (T : List LLMouseBinding) (r : LLMouseBinding)
    (k : EMouseClickType) (m : MASK) :
    (∃ b ∈ registerMouse T r, b.mMouse = k ∧ b.mMask = m) ↔
      ((∃ b ∈ T, b.mMouse = k ∧ b.mMask = m) ∨ (r.mMouse = k ∧ r.mMask = m)) := by
  have hmap : ∀ L : List LLMouseBinding, (∃ b ∈ L, b.mMouse = k ∧ b.mMask = m) ↔
      (k, m) ∈ L.map (fun b => (b.mMouse, b.mMask)) := by
    intro L
    simp only [List.mem_map, Prod.mk.injEq]
  unfold registerMouse bindMouseTable
  cases ho : overwriteMouseBinding r.mMouse r.mMask r.mFunction r.mFunctionName T with
  | some T' =>
    simp only
    rw [hmap T', overwriteMouseBinding_keys _ _ _ _ T T' ho, ← hmap T]
    constructor
    · exact Or.inl
    · rintro (h | ⟨h1, h2⟩)
      · exact h
      · obtain ⟨b, hb, hbk, hbm⟩ := overwriteMouseBinding_some_mem _ _ _ _ T T' ho
        exact ⟨b, hb, hbk.trans h1, hbm.trans h2⟩
  | none =>
    simp only [List.mem_append, List.mem_singleton]
    constructor
    · rintro ⟨b, hb | hb, h⟩
      · exact Or.inl ⟨b, hb, h⟩
      · subst hb; exact Or.inr h
    · rintro (⟨b, hb, h⟩ | h)
      · exact ⟨b, Or.inl hb, h⟩
      · exact ⟨_, Or.inr rfl, h⟩

theorem foldl_registerMouse_mem (k : EMouseClickType) (m : MASK) (L : List LLMouseBinding) :
    ∀ T : List LLMouseBinding,
      (∃ b ∈ L.foldl registerMouse T, b.mMouse = k ∧ b.mMask = m) ↔
        ((∃ b ∈ T, b.mMouse = k ∧ b.mMask = m) ∨ (∃ r ∈ L, r.mMouse = k ∧ r.mMask = m)) := by
  induction L with
  | nil => intro T; simp
  | cons r rest ih =>
    intro T
    rw [List.foldl_cons, ih, registerMouse_mem]
    simp only [List.mem_cons, exists_eq_or_imp, or_assoc]

/-- C11: loading recovers from per-entry errors.  For a readable source of a
supported version, the returned number is the count of well-formed entries (key
and mouse records with parsable tokens and a known action, in blocks with a
known mode name); every table after the load is exactly what registering
those entries, in order, yields - so an entry with an unknown mode, unknown
action or unparsable token is skipped, and every well-formed entry of the same
source has its (key, mask) or (click, mask) in its table, which holds no
other pairs.  A load that fails as a whole (unreadable source, unsupported
version) returns 0. -/
theorem C11_load_skips_bad_entries (env : LLBindEnv) (s : LLViewerInput) (keys : Keys)
    (hv : keys.xml_version ≤ keybindings_xml_version) :
    (loadBindingsXML env s (some keys)).2 = boundCount env keys ∧
    (∀ M G, keyTable (loadBindingsXML env s (some keys)).1 M G =
      (keyRegistrations env keys M G).foldl registerKey []) ∧
    (∀ M G, mouseTable (loadBindingsXML env s (some keys)).1 M G =
      (mouseRegistrations env keys M G).foldl registerMouse []) ∧
    (∀ M G k m, (∃ b ∈ keyTable (loadBindingsXML env s (some keys)).1 M G,
        b.mKey = k ∧ b.mMask = m) ↔
      (∃ r ∈ keyRegistrations env keys M G, r.mKey = k ∧ r.mMask = m)) ∧
    (∀ M G c m, (∃ b ∈ mouseTable (loadBindingsXML env s (some keys)).1 M G,
        b.mMouse = c ∧ b.mMask = m) ↔
      (∃ r ∈ mouseRegistrations env keys M G, r.mMouse = c ∧ r.mMask = m)) ∧
    (loadBindingsXML env s none).2 = 0 ∧
    (∀ bad : Keys, keybindings_xml_version < bad.xml_version →
      loadBindingsXML env s (some bad) = (resetBindings s, 0)) := by
  refine ⟨loadBindingsXML_count env s keys hv,
    fun M G => loadBindingsXML_keyTable env s keys hv M G,
    fun M G => loadBindingsXML_mouseTable env s keys hv M G, ?_, ?_, rfl, ?_⟩
  · intro M G k m
    rw [loadBindingsXML_keyTable env s keys hv M G, foldl_registerKey_mem]
    simp
  · intro M G c m
    rw [loadBindingsXML_mouseTable env s keys hv M G, foldl_registerMouse_mem]
    simp
  · intro bad hbad
    unfold loadBindingsXML
    simp only [gt_iff_lt, if_pos hbad]

/-- Witness for C11: `mixedKeys` has five entries, three of them bad (an
unparsable key token, an unknown action, an unknown mode); the load returns 2
and registers the well-formed key record (key 88, mask 1) and the well-formed
mouse record (click 0, empty mask) of the third-person block. -/
theorem C11_load_skips_bad_entries_witness :
    (loadBindingsXML exampleEnv (idleInput 2) (some mixedKeys)).2 = 2 ∧
    keyTable (loadBindingsXML exampleEnv (idleInput 2) (some mixedKeys)).1
        MODE_THIRD_PERSON false
      = [{ mKey := 88, mMask := 1, mFunction := ⟨false, false⟩, mFunctionName := "jump" }] ∧
    mouseTable (loadBindingsXML exampleEnv (idleInput 2) (some mixedKeys)).1
        MODE_THIRD_PERSON false
      = [{ mMouse := 0, mMask := MASK_NONE, mFunction := ⟨false, false⟩,
           mFunctionName := "run" }] :=
  have h := C11_load_skips_bad_entries exampleEnv (idleInput 2) mixedKeys (by decide)
  ⟨h.1.trans (by decide), (h.2.1 MODE_THIRD_PERSON false).trans (by decide),
    (h.2.2.1 MODE_THIRD_PERSON false).trans (by decide)⟩

/-- C12: the interaction mode is a closed set of exactly four values -
first-person, third-person, edit-avatar, sitting - numbered 0 to 3 in
`EKeyboardMode`; `MODE_COUNT` is 4; and the indices of a per-mode array
declared `[MODE_COUNT]` (regular and global key bindings, regular and global
mouse bindings, left-mouse default flags, key remaps) correspond one to one to
the modes: every mode has its slot inside the array, different modes have
different slots, and every slot belongs to a mode. -/
theorem C12_four_modes_one_slot_each :
    (∀ m : EKeyboardMode, m = MODE_FIRST_PERSON ∨ m = MODE_THIRD_PERSON ∨
      m = MODE_EDIT_AVATAR ∨ m = MODE_SITTING) ∧
    modeIndex MODE_FIRST_PERSON = 0 ∧ modeIndex MODE_THIRD_PERSON = 1 ∧
    modeIndex MODE_EDIT_AVATAR = 2 ∧ modeIndex MODE_SITTING = 3 ∧
    MODE_COUNT = 4 ∧
    (∀ m : EKeyboardMode, 0 ≤ modeIndex m ∧ modeIndex m < MODE_COUNT) ∧
    (∀ m m' : EKeyboardMode, modeIndex m = modeIndex m' ↔ m = m') ∧
    (∀ m : EKeyboardMode, modeFromIndex (modeIndex m) = some m) ∧
    (∀ i : Int, (0 ≤ i ∧ i < MODE_COUNT) ↔ ∃ m, modeFromIndex i = some m ∧ modeIndex m = i) := by
  refine ⟨fun m => by cases m <;> simp, rfl, rfl, rfl, rfl, rfl,
    fun m => by cases m <;> simp [modeIndex, MODE_COUNT],
    fun m m' => by cases m <;> cases m' <;> simp [modeIndex],
    fun m => by cases m <;> rfl, ?_⟩
  intro i
  constructor
  · rintro ⟨h0, h4⟩
    have h4' : i < 4 := h4
    have : i = 0 ∨ i = 1 ∨ i = 2 ∨ i = 3 := by omega
    rcases this with h | h | h | h <;> subst h
    · exact ⟨MODE_FIRST_PERSON, rfl, rfl⟩
    · exact ⟨MODE_THIRD_PERSON, rfl, rfl⟩
    · exact ⟨MODE_EDIT_AVATAR, rfl, rfl⟩
    · exact ⟨MODE_SITTING, rfl, rfl⟩
  · rintro ⟨m, _, hm⟩
    subst hm
    cases m <;> simp [modeIndex, MODE_COUNT]

/-- C13: `isLMouseHandlingDefault(mode)` is a pure per-mode lookup whose index
validity is a precondition: for every `mode` with `0 <= mode < MODE_COUNT` it
reads the slot of that mode in `mLMouseDefaultHandling`, returns exactly the
flag stored there and leaves the router as it was; it makes no bounds check,
and for a `mode` outside that range the read has no defined result. -/
theorem C13_isLMouseHandlingDefault_is_a_pure_lookup (s : LLViewerInput) (mode : Int) :
    ((0 ≤ mode ∧ mode < MODE_COUNT) →
      ∃ m, modeIndex m = mode ∧
        isLMouseHandlingDefaultAt s mode = some (s, s.mLMouseDefaultHandling m)) ∧
    (¬ (0 ≤ mode ∧ mode < MODE_COUNT) → isLMouseHandlingDefaultAt s mode = none) ∧
    (∀ m : EKeyboardMode,
      isLMouseHandlingDefaultAt s (modeIndex m) = some (s, isLMouseHandlingDefault s m)) := by
  refine ⟨?_, ?_, fun m => by cases m <;> rfl⟩
  · rintro ⟨h0, h4⟩
    have h4' : mode < 4 := h4
    have : mode = 0 ∨ mode = 1 ∨ mode = 2 ∨ mode = 3 := by omega
    rcases this with h | h | h | h <;> subst h
    · exact ⟨MODE_FIRST_PERSON, rfl, rfl⟩
    · exact ⟨MODE_THIRD_PERSON, rfl, rfl⟩
    · exact ⟨MODE_EDIT_AVATAR, rfl, rfl⟩
    · exact ⟨MODE_SITTING, rfl, rfl⟩
  · intro h
    have hne : mode ≠ 0 ∧ mode ≠ 1 ∧ mode ≠ 2 ∧ mode ≠ 3 := by
      have : ¬ (0 ≤ mode ∧ mode < 4) := h
      omega
    simp [isLMouseHandlingDefaultAt, modeFromIndex, hne.1, hne.2.1, hne.2.2.1, hne.2.2.2]

/-- Witness for C13: on `flyInput`, index 3 (sitting) is inside the array and
reads the sitting flag, index 4 is outside and has no result. -/
theorem C13_isLMouseHandlingDefault_is_a_pure_lookup_witness :
    (∃ m, modeIndex m = 3 ∧
      isLMouseHandlingDefaultAt flyInput 3 = some (flyInput, flyInput.mLMouseDefaultHandling m)) ∧
    isLMouseHandlingDefaultAt flyInput 4 = none :=
  ⟨(C13_isLMouseHandlingDefault_is_a_pure_lookup flyInput 3).1 (by decide),
    (C13_isLMouseHandlingDefault_is_a_pure_lookup flyInput 4).2.1 (by decide)⟩

end LLViewerInputModel

namespace LLTextureCtrlModel

/-! ## Theorems: texture control and picker -/

theorem setImageAssetID_asset (env : LLInventoryEnv) (c : LLTextureCtrl) (v : LLUUID) :
    (c.setImageAssetID env v).mImageAssetID = v := by
  unfold LLTextureCtrl.setImageAssetID
  by_cases h : c.mImageAssetID = v
  · simp [h]
  · simp only [bne_iff_ne, ne_eq, h, not_false_eq_true, if_true]
    cases c.mFloater with
    | none => rfl
    | some fl => cases c.mEnabled <;> rfl

theorem setImageAssetID_same (env : LLInventoryEnv) (c : LLTextureCtrl) (v : LLUUID)
    (h : c.mImageAssetID = v) : c.setImageAssetID env v = c := by
  unfold LLTextureCtrl.setImageAssetID
  simp [h]

theorem setImageAssetID_item (env : LLInventoryEnv) (c : LLTextureCtrl) (v : LLUUID) :
    (c.setImageAssetID env v).mImageItemID =
      if c.mImageAssetID = v then c.mImageItemID else LLUUID.null := by
  unfold LLTextureCtrl.setImageAssetID
  by_cases h : c.mImageAssetID = v
  · simp [h]
  · simp only [bne_iff_ne, ne_eq, h, not_false_eq_true, if_true, if_false]
    cases c.mFloater with
    | none => rfl
    | some fl => cases c.mEnabled <;> rfl

/-- C14: value round trip of `LLTextureCtrl`: for every asset id `v`, after
`setValue(v)` the control's `getValue()` returns `v`.  `setImageAssetID` is
idempotent and resets the remembered inventory item only on a real change:
called with the id already stored it changes nothing (`mImageItemID` is
kept), and called with a different id it stores the new id and sets
`mImageItemID` to null. -/
theorem C14_texture_ctrl_value_round_trip (env : LLInventoryEnv) (c : LLTextureCtrl)
    (v : LLUUID) :
    (c.setValue env (LLSD.uuid v)).getValue = LLSD.uuid v ∧
    (c.setValue env (LLSD.uuid v)).getValue.asUUID = v ∧
    (c.setImageAssetID env v).setImageAssetID env v = c.setImageAssetID env v ∧
    c.setImageAssetID env c.mImageAssetID = c ∧
    (c.setImageAssetID env v).mImageAssetID = v ∧
    (c.setImageAssetID env v).mImageItemID =
      (if c.mImageAssetID = v then c.mImageItemID else LLUUID.null) := by
  have h1 : (c.setValue env (LLSD.uuid v)).getValue = LLSD.uuid v := by
    simp [LLTextureCtrl.setValue, LLTextureCtrl.getValue, LLTextureCtrl.getImageAssetID,
      LLSD.asUUID, setImageAssetID_asset]
  refine ⟨h1, by rw [h1]; rfl, ?_, setImageAssetID_same env c _ rfl,
    setImageAssetID_asset env c v, setImageAssetID_item env c v⟩
  exact setImageAssetID_same env _ v (setImageAssetID_asset env c v)

/-- C15 (counterexample): on `selectCallbackCtrl` the `no_commit_on_selection`
parameter is set and a select callback is installed; the notification
(TEXTURE_SELECT, asset id 2) passes the guard, yet `onCommit` is not called:
the select callback is called in its place. -/
theorem C15_select_with_callback_does_not_commit :
    selectCallbackCtrl.mCommitOnSelection = false ∧
    selectCallbackCtrl.passesGuard ⟨2⟩ = true ∧
    (selectCallbackCtrl.onFloaterCommit emptyInventory ETexturePickOp.TEXTURE_SELECT
      LLPickerSource.PICKER_UNKNOWN ⟨2⟩ LLUUID.null).2 = [LLTextureCtrlCall.onSelectCallback] ∧
    LLTextureCtrlCall.onCommit ∉
      (selectCallbackCtrl.onFloaterCommit emptyInventory ETexturePickOp.TEXTURE_SELECT
        LLPickerSource.PICKER_UNKNOWN ⟨2⟩ LLUUID.null).2 := by
  decide

/-- C15 (amended): when `no_commit_on_selection` is set (`mCommitOnSelection`
is false), for every picker notification that passes the
enabled/dirty-or-non-null guard, `onFloaterCommit` calls `onCommit` if and
only if `op == TEXTURE_SELECT` and no select callback is installed; when a
select callback is installed, a TEXTURE_SELECT notification calls that
callback and not `onCommit`. -/
theorem C15_commit_only_on_select_without_callback (env : LLInventoryEnv)
    (c : LLTextureCtrl) (op : ETexturePickOp) (source : LLPickerSource)
    (asset_id inv_id : LLUUID)
    (hno : c.mCommitOnSelection = false) (hguard : c.passesGuard asset_id = true) :
    (LLTextureCtrlCall.onCommit ∈ (c.onFloaterCommit env op source asset_id inv_id).2 ↔
      (op = ETexturePickOp.TEXTURE_SELECT ∧ c.mOnSelectCallback = false)) ∧
    ((op = ETexturePickOp.TEXTURE_SELECT ∧ c.mOnSelectCallback = true) →
      (c.onFloaterCommit env op source asset_id inv_id).2 =
        [LLTextureCtrlCall.onSelectCallback]) := by
  unfold LLTextureCtrl.passesGuard at hguard
  unfold LLTextureCtrl.onFloaterCommit
  cases hf : c.mFloater with
  | none => simp [hf] at hguard
  | some fl =>
    simp only [hf, Bool.and_eq_true] at hguard
    obtain ⟨hen, hd⟩ := hguard
    simp only [hen, if_true, hd, hno, Bool.false_or]
    cases op <;> cases hs : c.mOnSelectCallback <;> cases hc : c.mOnCancelCallback <;> simp

/-- Witness for C15 (amended): `selectCallbackCtrl` and a TEXTURE_CANCEL
notification for asset id 2. -/
theorem C15_commit_only_on_select_without_callback_witness :
    (LLTextureCtrlCall.onCommit ∈ (selectCallbackCtrl.onFloaterCommit emptyInventory
        ETexturePickOp.TEXTURE_CANCEL LLPickerSource.PICKER_UNKNOWN ⟨2⟩ LLUUID.null).2 ↔
      (ETexturePickOp.TEXTURE_CANCEL = ETexturePickOp.TEXTURE_SELECT ∧
        selectCallbackCtrl.mOnSelectCallback = false)) ∧
    ((ETexturePickOp.TEXTURE_CANCEL = ETexturePickOp.TEXTURE_SELECT ∧
        selectCallbackCtrl.mOnSelectCallback = true) →
      (selectCallbackCtrl.onFloaterCommit emptyInventory
        ETexturePickOp.TEXTURE_CANCEL LLPickerSource.PICKER_UNKNOWN ⟨2⟩ LLUUID.null).2 =
        [LLTextureCtrlCall.onSelectCallback]) :=
  C15_commit_only_on_select_without_callback emptyInventory selectCallbackCtrl
    ETexturePickOp.TEXTURE_CANCEL LLPickerSource.PICKER_UNKNOWN ⟨2⟩ LLUUID.null rfl rfl

/-- C16: `findItemID` searches for a copyable version first and otherwise
returns the first instance, unless a copyable one was requested.  For every
list of inventory items matching the asset id, with `ignore_library` false the
result is the id of the first item copyable by the agent if there is one;
otherwise it is null when `copyable_only` is true and the id of the first
matching item when `copyable_only` is false; it is null when no item
matches.  With `ignore_library` true the result is null or the id of a
matching item that does not descend from the library root. -/
theorem C16_findItemID_prefers_copyable (env : LLInventoryEnv) (asset_id : LLUUID)
    (copyable_only : Bool) :
    findItemID env asset_id copyable_only false =
      (match (env.mItems asset_id).find? (fun it => it.mCopyable) with
       | some it => it.mUUID
       | none =>
         if copyable_only then LLUUID.null
         else match (env.mItems asset_id).head? with
           | some it0 => it0.mUUID
           | none => LLUUID.null) ∧
    (env.mItems asset_id = [] → ∀ ignore_library,
      findItemID env asset_id copyable_only ignore_library = LLUUID.null) ∧
    (findItemID env asset_id copyable_only true = LLUUID.null ∨
      ∃ it ∈ env.mItems asset_id, it.mInLibrary = false ∧
        it.mUUID = findItemID env asset_id copyable_only true) := by
  unfold findItemID findItemIDIn
  refine ⟨?_, ?_, ?_⟩
  · cases hitems : env.mItems asset_id with
    | nil => simp
    | cons it0 rest =>
      simp only [List.length_cons, ne_eq, Nat.add_one_ne_zero, not_false_eq_true, if_true,
        Bool.not_false, Bool.true_or, Bool.and_true, List.head?_cons]
  · intro h ig
    simp [h]
  · cases hitems : env.mItems asset_id with
    | nil => simp
    | cons it0 rest =>
      simp only [List.length_cons, ne_eq, Nat.add_one_ne_zero, not_false_eq_true, if_true,
        Bool.not_true, Bool.false_or]
      cases hfind : (it0 :: rest).find? (fun it => it.mCopyable && !it.mInLibrary) with
      | some it =>
        right
        have hmem := List.mem_of_find?_eq_some hfind
        have hp := List.find?_some hfind
        simp only [Bool.and_eq_true, Bool.not_eq_true'] at hp
        exact ⟨it, hmem, hp.2, rfl⟩
      | none =>
        simp only
        cases copyable_only with
        | true => left; rfl
        | false =>
          cases hl : it0.mInLibrary with
          | true => left; simp
          | false =>
            right
            exact ⟨it0, List.mem_cons_self _ _, hl, by simp⟩

/-- Witness for C16: in `libraryInventory` the first copyable item matching
asset id 9 is item 10; no item matches asset id 5 in `emptyInventory`, where
the result is null. -/
theorem C16_findItemID_prefers_copyable_witness :
    findItemID libraryInventory ⟨9⟩ false false = ⟨10⟩ ∧
    findItemID emptyInventory ⟨5⟩ false true = LLUUID.null :=
  ⟨(C16_findItemID_prefers_copyable libraryInventory ⟨9⟩ false).1.trans (by decide),
   (C16_findItemID_prefers_copyable emptyInventory ⟨5⟩ false).2.1 rfl true⟩

end LLTextureCtrlModel

namespace LLMaterialEditorModel

open LLTextureCtrlModel

/-! ## Theorems: material editor -/

theorem setValue_getValue_asUUID (env : LLInventoryEnv) (c : LLTextureCtrl) (v : LLUUID) :
    ((c.setValue env (LLSD.uuid v)).setDefaultImageAssetID v).getValue.asUUID = v := by
  simp [LLTextureCtrl.setValue, LLTextureCtrl.getValue, LLTextureCtrl.getImageAssetID,
    LLTextureCtrl.setDefaultImageAssetID, LLSD.asUUID, setImageAssetID_asset]

theorem scheduleUpload_fst (env : LLEditorEnv) (r : LLMaterialEditor × Int × List LLEditorAction)
    (p : Bool) (img : Option LLImageJ2C) (name : String) (id : LLUUID) (slot : ETextureSlot) :
    (scheduleUpload env r p img name id slot).1 =
      { r.1 with mUploadingTexturesCount :=
          r.1.mUploadingTexturesCount + (if p then 1 else 0) } := by
  cases p <;> simp [scheduleUpload]

theorem scheduleUpload_count (env : LLEditorEnv)
    (r : LLMaterialEditor × Int × List LLEditorAction)
    (p : Bool) (img : Option LLImageJ2C) (name : String) (id : LLUUID) (slot : ETextureSlot) :
    (scheduleUpload env r p img name id slot).2.1 = r.2.1 + (if p then 1 else 0) := by
  cases p <;> simp [scheduleUpload]

theorem scheduleUpload_actions (env : LLEditorEnv)
    (r : LLMaterialEditor × Int × List LLEditorAction)
    (p : Bool) (img : Option LLImageJ2C) (name : String) (id : LLUUID) (slot : ETextureSlot) :
    (scheduleUpload env r p img name id slot).2.2 =
      r.2.2 ++ (if p then saveTexture env img name id slot else []) := by
  cases p <;> simp [scheduleUpload]

theorem saveTextures_ctrls (env : LLEditorEnv) (me : LLMaterialEditor) :
    (me.saveTextures env).1.mAlbedoTextureCtrl = me.mAlbedoTextureCtrl ∧
    (me.saveTextures env).1.mNormalTextureCtrl = me.mNormalTextureCtrl ∧
    (me.saveTextures env).1.mMetallicTextureCtrl = me.mMetallicTextureCtrl ∧
    (me.saveTextures env).1.mEmissiveTextureCtrl = me.mEmissiveTextureCtrl := by
  simp only [LLMaterialEditor.saveTextures, scheduleUpload_fst,
    LLMaterialEditor.discardUploadState, and_self]

theorem saveIfNeeded_ctrls (env : LLEditorEnv) (me : LLMaterialEditor) :
    (me.saveIfNeeded env).1.mAlbedoTextureCtrl = me.mAlbedoTextureCtrl ∧
    (me.saveIfNeeded env).1.mNormalTextureCtrl = me.mNormalTextureCtrl ∧
    (me.saveIfNeeded env).1.mMetallicTextureCtrl = me.mMetallicTextureCtrl ∧
    (me.saveIfNeeded env).1.mEmissiveTextureCtrl = me.mEmissiveTextureCtrl := by
  have h := saveTextures_ctrls env me
  unfold LLMaterialEditor.saveIfNeeded
  by_cases h1 : me.mUploadingTexturesCount > 0
  · simp only [h1, if_true, and_self]
  · simp only [h1, if_false]
    by_cases h2 : (me.saveTextures env).2.1 > 0
    · simp only [h2, if_true]; exact h
    · simp only [h2, if_false]
      cases env.mHasItem
      · simp only [Bool.false_eq_true, if_false]; exact h
      · simp only [if_true]
        cases (saveToInventoryItem env (env.mEncodedAsset (me.saveTextures env).1)
          (me.saveTextures env).1.mItemUUID (me.saveTextures env).1.mObjectUUID).1
        · simp only [Bool.not_false, if_true]; exact h
        · simp only [Bool.not_true, Bool.false_eq_true, if_false]
          cases (me.saveTextures env).1.mCloseAfterSave
          · simp only [Bool.false_eq_true, if_false]; exact h
          · simp only [if_true]; exact h

/-- C17: for the albedo, metallic-roughness and emissive slots, when the upload
callback installed by `saveTextures` receives a response whose `success` is
false, the editor's texture id for the slot is null once the callback has
run.  For the normal slot the code differs: after the branch on `success` the
callback calls `setNormalId(newAssetId)` once more, so the normal texture id
is the asset id handed to the callback, not null. -/
theorem C17_failed_upload_callback_texture_ids (env : LLEditorEnv) (me : LLMaterialEditor)
    (newAssetId : LLUUID) :
    (uploadCallback env ETextureSlot.albedo newAssetId false me).1.getAlbedoId
      = LLUUID.null ∧
    (uploadCallback env ETextureSlot.metallicRoughness newAssetId false
      me).1.getMetallicRoughnessId = LLUUID.null ∧
    (uploadCallback env ETextureSlot.emissive newAssetId false me).1.getEmissiveId
      = LLUUID.null ∧
    (uploadCallback env ETextureSlot.normal newAssetId false me).1.getNormalId
      = newAssetId := by
  refine ⟨?_, ?_, ?_, ?_⟩
  · simp only [uploadCallback, LLMaterialEditor.getAlbedoId, (saveIfNeeded_ctrls env _).1]
    exact setValue_getValue_asUUID _ _ _
  · simp only [uploadCallback, LLMaterialEditor.getMetallicRoughnessId,
      (saveIfNeeded_ctrls env _).2.2.1]
    exact setValue_getValue_asUUID _ _ _
  · simp only [uploadCallback, LLMaterialEditor.getEmissiveId,
      (saveIfNeeded_ctrls env _).2.2.2]
    exact setValue_getValue_asUUID _ _ _
  · simp only [uploadCallback, LLMaterialEditor.getNormalId, (saveIfNeeded_ctrls env _).2.1]
    exact setValue_getValue_asUUID _ _ _

theorem pendingUploadCount_eq (me : LLMaterialEditor) :
    me.pendingUploadCount =
      (if (me.mAlbedoTextureUploadId == me.getAlbedoId &&
          me.mAlbedoTextureUploadId.notNull) = true then 1 else 0) +
      (if (me.mNormalTextureUploadId == me.getNormalId &&
          me.mNormalTextureUploadId.notNull) = true then 1 else 0) +
      (if (me.mMetallicTextureUploadId == me.getMetallicRoughnessId &&
          me.mMetallicTextureUploadId.notNull) = true then 1 else 0) +
      (if (me.mEmissiveTextureUploadId == me.getEmissiveId &&
          me.mEmissiveTextureUploadId.notNull) = true then 1 else 0) := by
  simp only [LLMaterialEditor.pendingUploadCount, allSlots, LLMaterialEditor.getUploadId,
    LLMaterialEditor.getTextureId, List.filter_cons, List.filter_nil]
  rw [Bool.and_comm (me.mAlbedoTextureUploadId.notNull),
    Bool.and_comm (me.mNormalTextureUploadId.notNull),
    Bool.and_comm (me.mMetallicTextureUploadId.notNull),
    Bool.and_comm (me.mEmissiveTextureUploadId.notNull)]
  cases (me.mAlbedoTextureUploadId == me.getAlbedoId && me.mAlbedoTextureUploadId.notNull) <;>
  cases (me.mNormalTextureUploadId == me.getNormalId && me.mNormalTextureUploadId.notNull) <;>
  cases (me.mMetallicTextureUploadId == me.getMetallicRoughnessId &&
    me.mMetallicTextureUploadId.notNull) <;>
  cases (me.mEmissiveTextureUploadId == me.getEmissiveId &&
    me.mEmissiveTextureUploadId.notNull) <;> rfl

theorem saveTextures_workCount (env : LLEditorEnv) (me : LLMaterialEditor) :
    (me.saveTextures env).2.1 = (me.pendingUploadCount : Int) := by
  rw [pendingUploadCount_eq]
  simp only [LLMaterialEditor.saveTextures, scheduleUpload_count, scheduleUpload_fst,
    LLMaterialEditor.getNormalId, LLMaterialEditor.getMetallicRoughnessId,
    LLMaterialEditor.getEmissiveId, LLMaterialEditor.getAlbedoId]
  push_cast
  ring

theorem saveTextures_uploadingCount (env : LLEditorEnv) (me : LLMaterialEditor) :
    (me.saveTextures env).1.mUploadingTexturesCount =
      me.mUploadingTexturesCount + (me.pendingUploadCount : Int) := by
  rw [pendingUploadCount_eq]
  simp only [LLMaterialEditor.saveTextures, scheduleUpload_fst,
    LLMaterialEditor.discardUploadState,
    LLMaterialEditor.getNormalId, LLMaterialEditor.getMetallicRoughnessId,
    LLMaterialEditor.getEmissiveId, LLMaterialEditor.getAlbedoId]
  push_cast
  ring

theorem uploadCount_append (a b : List LLEditorAction) :
    uploadCount (a ++ b) = uploadCount a + uploadCount b := by
  simp [uploadCount, List.filter_append]

theorem uploadCount_saveTexture_le (env : LLEditorEnv) (img : Option LLImageJ2C)
    (name : String) (id : LLUUID) (slot : ETextureSlot) :
    uploadCount (saveTexture env img name id slot) ≤ 1 := by
  unfold saveTexture
  cases img with
  | none => simp [uploadCount]
  | some j =>
    by_cases h : id.isNull = true ∨ j.mData = []
    · simp [uploadCount, h]
    · simp [uploadCount, h]

theorem saveTextures_uploadCount_le (env : LLEditorEnv) (me : LLMaterialEditor) :
    uploadCount (me.saveTextures env).2.2 ≤ me.pendingUploadCount := by
  rw [pendingUploadCount_eq]
  simp only [LLMaterialEditor.saveTextures, scheduleUpload_actions, scheduleUpload_fst,
    LLMaterialEditor.getNormalId, LLMaterialEditor.getMetallicRoughnessId,
    LLMaterialEditor.getEmissiveId, LLMaterialEditor.getAlbedoId, uploadCount_append]
  have h1 := uploadCount_saveTexture_le env me.mAlbedoJ2C me.mAlbedoName
    me.mAlbedoTextureUploadId ETextureSlot.albedo
  have h2 := uploadCount_saveTexture_le env me.mNormalJ2C me.mNormalName
    me.mNormalTextureUploadId ETextureSlot.normal
  have h3 := uploadCount_saveTexture_le env me.mMetallicRoughnessJ2C me.mMetallicRoughnessName
    me.mMetallicTextureUploadId ETextureSlot.metallicRoughness
  have h4 := uploadCount_saveTexture_le env me.mEmissiveJ2C me.mEmissiveName
    me.mEmissiveTextureUploadId ETextureSlot.emissive
  have h0 : uploadCount [] = 0 := rfl
  repeat' split
  all_goals (simp only [h0]; omega)

/-- C18: `saveTextures` returns the number of slots it counts as pending (the
pending-upload id is non-null and equals the current texture id) and raises
`mUploadingTexturesCount` by that number, but the number of uploads it hands
to the uploader can be smaller: `saveTexture` returns without uploading when
the upload buffer is null or empty.  On `exampleEditor` (albedo pending with no
buffer, normal pending with a buffer) it returns 2 and raises the counter by
2, while only one upload reaches the uploader. -/
theorem C18_work_count_exceeds_uploads :
    (∀ (env : LLEditorEnv) (me : LLMaterialEditor),
      (me.saveTextures env).2.1 = (me.pendingUploadCount : Int) ∧
      (me.saveTextures env).1.mUploadingTexturesCount =
        me.mUploadingTexturesCount + (me.pendingUploadCount : Int) ∧
      uploadCount (me.saveTextures env).2.2 ≤ me.pendingUploadCount) ∧
    (exampleEditor.saveTextures exampleEditorEnv).2.1 = 2 ∧
    (exampleEditor.saveTextures exampleEditorEnv).1.mUploadingTexturesCount =
      exampleEditor.mUploadingTexturesCount + 2 ∧
    (exampleEditor.saveTextures exampleEditorEnv).2.2 =
      [LLEditorAction.uploadNewResource ETextureSlot.normal ⟨8⟩ "Normal" [1, 2, 3] 10] ∧
    uploadCount (exampleEditor.saveTextures exampleEditorEnv).2.2 = 1 := by
  refine ⟨fun env me => ⟨saveTextures_workCount env me, saveTextures_uploadingCount env me,
    saveTextures_uploadCount_le env me⟩, ?_, ?_, ?_, ?_⟩ <;> decide

theorem discardUploadState_idem (me : LLMaterialEditor) :
    me.discardUploadState.discardUploadState = me.discardUploadState := rfl

theorem saveTextures_of_no_pending (env : LLEditorEnv) (me : LLMaterialEditor)
    (h1 : me.mAlbedoTextureUploadId = LLUUID.null)
    (h2 : me.mNormalTextureUploadId = LLUUID.null)
    (h3 : me.mMetallicTextureUploadId = LLUUID.null)
    (h4 : me.mEmissiveTextureUploadId = LLUUID.null) :
    me.saveTextures env = (me.discardUploadState, 0, []) := by
  have hn : LLUUID.null.notNull = false := rfl
  simp only [LLMaterialEditor.saveTextures, h1, h2, h3, h4, hn, Bool.and_false, scheduleUpload,
    Bool.false_eq_true, if_false]

/-- C19: `saveTextures` discards all upload state: after any call the four J2C
upload buffers and the four fetched textures are null and the four
pending-upload ids (albedo, normal, metallic, emissive) are null, whatever was
scheduled; consequently a second `saveTextures` call made before any upload
callback runs schedules nothing, returns 0 and leaves the editor as it is. -/
theorem C19_saveTextures_discards_upload_state (env : LLEditorEnv) (me : LLMaterialEditor) :
    (me.saveTextures env).1.mAlbedoJ2C = none ∧
    (me.saveTextures env).1.mNormalJ2C = none ∧
    (me.saveTextures env).1.mMetallicRoughnessJ2C = none ∧
    (me.saveTextures env).1.mEmissiveJ2C = none ∧
    (me.saveTextures env).1.mAlbedoFetched = none ∧
    (me.saveTextures env).1.mNormalFetched = none ∧
    (me.saveTextures env).1.mMetallicRoughnessFetched = none ∧
    (me.saveTextures env).1.mEmissiveFetched = none ∧
    (me.saveTextures env).1.mAlbedoTextureUploadId = LLUUID.null ∧
    (me.saveTextures env).1.mNormalTextureUploadId = LLUUID.null ∧
    (me.saveTextures env).1.mMetallicTextureUploadId = LLUUID.null ∧
    (me.saveTextures env).1.mEmissiveTextureUploadId = LLUUID.null ∧
    (me.saveTextures env).1.saveTextures env = ((me.saveTextures env).1, 0, []) := by
  have hshape : ∃ x : LLMaterialEditor, (me.saveTextures env).1 = x.discardUploadState :=
    ⟨_, rfl⟩
  obtain ⟨x, hx⟩ := hshape
  rw [hx]
  refine ⟨rfl, rfl, rfl, rfl, rfl, rfl, rfl, rfl, rfl, rfl, rfl, rfl, ?_⟩
  rw [saveTextures_of_no_pending env _ rfl rfl rfl rfl, discardUploadState_idem]

theorem saveIfNeeded_eq (env : LLEditorEnv) (me : LLMaterialEditor) :
    me.saveIfNeeded env =
      if me.mUploadingTexturesCount > 0 then (me, true, [])
      else saveIfNeededAfter env (me.saveTextures env) := rfl

theorem isEmpty_eq_false_iff (s : String) : s.isEmpty = false ↔ s ≠ "" := by
  have h := String.isEmpty_iff s
  cases hs : s.isEmpty
  · simp only [true_iff, ne_eq]
    intro he
    rw [h.mpr he] at hs
    exact Bool.noConfusion hs
  · simp only [ne_eq, Bool.true_eq_false, false_iff, not_not]
    exact h.mp hs

/-- C21: `saveToInventoryItem` returns true if and only if the agent is in a
region and both the UpdateMaterialAgentInventory and the
UpdateMaterialTaskInventory capability URLs are non-empty; when it returns
true it enqueues exactly one upload, to the agent URL when `task_id` is null
and to the task URL otherwise; when it returns false it enqueues none.  In
particular a save to agent inventory (null `task_id`) fails when the task
capability is missing. -/
theorem C21_saveToInventoryItem_needs_both_capabilities (env : LLEditorEnv) (buffer : String)
    (item_id task_id : LLUUID) :
    ((saveToInventoryItem env buffer item_id task_id).1 = true ↔
      ∃ region, env.mRegion = some region ∧ region.mAgentUrl ≠ "" ∧ region.mTaskUrl ≠ "") ∧
    (∀ region, env.mRegion = some region → region.mAgentUrl ≠ "" → region.mTaskUrl ≠ "" →
      saveToInventoryItem env buffer item_id task_id =
        (true, [LLEditorAction.enqueueInventoryUpload
          (if task_id.isNull then region.mAgentUrl else region.mTaskUrl)
          item_id task_id buffer])) ∧
    ((saveToInventoryItem env buffer item_id task_id).1 = false →
      (saveToInventoryItem env buffer item_id task_id).2 = []) ∧
    (∀ region, env.mRegion = some region → region.mTaskUrl = "" →
      saveToInventoryItem env buffer item_id LLUUID.null = (false, [])) := by
  unfold saveToInventoryItem
  cases hr : env.mRegion with
  | none => simp
  | some region =>
    by_cases ha : region.mAgentUrl = "" <;> by_cases ht : region.mTaskUrl = "" <;>
      cases hn : task_id.isNull <;>
      simp [ha, ht, hn, String.isEmpty_iff, isEmpty_eq_false_iff]

/-- Witness for C21: in `agentOnlyEnv` the task capability is missing; a save
to agent inventory (null task id) returns false and enqueues nothing. -/
theorem C21_saveToInventoryItem_needs_both_capabilities_witness :
    saveToInventoryItem agentOnlyEnv "asset" ⟨100⟩ LLUUID.null = (false, []) :=
  (C21_saveToInventoryItem_needs_both_capabilities agentOnlyEnv "asset" ⟨100⟩
    LLUUID.null).2.2.2 _ rfl rfl

/-! ### GLTF model round trip -/

theorem toS32_small (n : Nat) (h : n < 2 ^ 31) : toS32 n = (n : Int) := by
  unfold toS32
  have h1 : n % 2 ^ 32 = n := Nat.mod_eq_of_lt (by omega)
  rw [h1, if_pos h]

theorem eq_null_of_notNull_false (id : LLUUID) (h : id.notNull = false) : id = LLUUID.null := by
  unfold LLUUID.notNull at h
  simpa using h

theorem storedInLockstep_append (codec : LLUUIDText) (images I : List tinygltf.Image)
    (textures T : List tinygltf.Texture) (id : LLUUID) (index : Int)
    (h : storedInLockstep codec images textures id index) :
    storedInLockstep codec (images ++ I) (textures ++ T) id index := by
  unfold storedInLockstep at h ⊢
  by_cases hn : id.notNull = true
  · rw [if_pos hn] at h ⊢
    obtain ⟨h0, hi, ht⟩ := h
    refine ⟨h0, ?_, ?_⟩
    · have hlt : index.toNat < images.length := by
        by_contra hge
        rw [List.getElem?_eq_none (by omega)] at hi
        exact Option.noConfusion hi
      rw [List.getElem?_append_left hlt]
      exact hi
    · have hlt : index.toNat < textures.length := by
        by_contra hge
        rw [List.getElem?_eq_none (by omega)] at ht
        exact Option.noConfusion ht
      rw [List.getElem?_append_left hlt]
      exact ht
  · rw [if_neg hn] at h ⊢
    exact h

theorem writeTextureIfSet_spec (codec : LLUUIDText) (id : LLUUID) (model : tinygltf.Model)
    (hlen : model.images.length = model.textures.length)
    (hsz : model.textures.length < 2 ^ 31) :
    storedInLockstep codec (writeTextureIfSet codec id (-1) model).2.images
      (writeTextureIfSet codec id (-1) model).2.textures id
      (writeTextureIfSet codec id (-1) model).1 ∧
    (writeTextureIfSet codec id (-1) model).2.images.length =
      (writeTextureIfSet codec id (-1) model).2.textures.length ∧
    (writeTextureIfSet codec id (-1) model).2.textures.length ≤ model.textures.length + 1 ∧
    (∃ I T, (writeTextureIfSet codec id (-1) model).2.images = model.images ++ I ∧
      (writeTextureIfSet codec id (-1) model).2.textures = model.textures ++ T) ∧
    (writeTextureIfSet codec id (-1) model).2.materials = model.materials := by
  unfold writeTextureIfSet storedInLockstep
  by_cases hn : id.notNull = true
  · simp only [hn, if_true, write_texture, List.length_append, List.length_singleton,
      Nat.add_sub_cancel]
    have h1 : model.textures.length % 2 ^ 32 = model.textures.length :=
      Nat.mod_eq_of_lt (by omega)
    have h2 : model.images.length % 2 ^ 32 = model.images.length :=
      Nat.mod_eq_of_lt (by omega)
    rw [h1, h2, toS32_small _ hsz, toS32_small _ (by omega)]
    refine ⟨⟨by omega, ?_, ?_⟩, by omega, le_refl _, ⟨_, _, rfl, rfl⟩, trivial⟩
    · rw [Int.toNat_ofNat, ← hlen]
      simp
    · rw [Int.toNat_ofNat, hlen]
      simp
  · have hf : id.notNull = false := by simpa using hn
    simp only [hf, Bool.false_eq_true, if_false]
    exact ⟨trivial, hlen, by omega, ⟨[], [], by simp, by simp⟩, trivial⟩

theorem readTextureId_stored (codec : LLUUIDText) (model : tinygltf.Model) (id : LLUUID)
    (index : Int) (hrt : codec.set (codec.asString id) = id)
    (h : storedInLockstep codec model.images model.textures id index) :
    readTextureId codec model index = some id := by
  unfold storedInLockstep at h
  unfold readTextureId
  by_cases hn : id.notNull = true
  · rw [if_pos hn] at h
    rw [if_pos h.1, h.2.1]
    simp [hrt]
  · rw [if_neg hn] at h
    have hnull := eq_null_of_notNull_false id (by simpa using hn)
    subst h
    simp [hnull]

theorem getGLTFModel_spec (codec : LLUUIDText) (me : LLMaterialEditor) (model : tinygltf.Model)
    (hmat : model.materials = [])
    (hlen : model.images.length = model.textures.length)
    (hsz : model.textures.length + 4 ≤ 2 ^ 31) :
    ∃ mat, (me.getGLTFModel codec model).materials = [mat] ∧
      mat.alphaMode = me.getAlphaMode ∧ mat.doubleSided = me.getDoubleSided ∧
      (me.getGLTFModel codec model).images.length =
        (me.getGLTFModel codec model).textures.length ∧
      (∀ slot, storedInLockstep codec (me.getGLTFModel codec model).images
        (me.getGLTFModel codec model).textures (me.getTextureId slot)
        (mat.textureIndex slot)) := by
  unfold LLMaterialEditor.getGLTFModel
  simp only [hmat, resizeMaterials, List.headD_cons, tinygltf.Material.default]
  generalize hm1 : ({ model with materials :=
    [{ baseColorTextureIndex := -1, metallicRoughnessTextureIndex := -1
       emissiveTextureIndex := -1, normalTextureIndex := -1
       alphaMode := "OPAQUE", doubleSided := false }] } : tinygltf.Model) = m1
  have hlen1 : m1.images.length = m1.textures.length := by rw [← hm1]; exact hlen
  have hsz1 : m1.textures.length + 4 ≤ 2 ^ 31 := by rw [← hm1]; exact hsz
  obtain ⟨sa, la, za, ⟨Ia, Ta, hIa, hTa⟩, -⟩ :=
    writeTextureIfSet_spec codec me.getAlbedoId m1 hlen1 (by omega)
  generalize writeTextureIfSet codec me.getAlbedoId (-1) m1 = a at *
  obtain ⟨sm, lm, zm, ⟨Im, Tm, hIm, hTm⟩, -⟩ :=
    writeTextureIfSet_spec codec me.getMetallicRoughnessId a.2 la (by omega)
  generalize writeTextureIfSet codec me.getMetallicRoughnessId (-1) a.2 = mr at *
  obtain ⟨se, le, ze, ⟨Ie, Te, hIe, hTe⟩, -⟩ :=
    writeTextureIfSet_spec codec me.getEmissiveId mr.2 lm (by omega)
  generalize writeTextureIfSet codec me.getEmissiveId (-1) mr.2 = e at *
  obtain ⟨sn, ln, zn, ⟨In, Tn, hIn, hTn⟩, -⟩ :=
    writeTextureIfSet_spec codec me.getNormalId e.2 le (by omega)
  generalize writeTextureIfSet codec me.getNormalId (-1) e.2 = n at *
  refine ⟨_, rfl, rfl, rfl, ln, ?_⟩
  intro slot
  cases slot
  · simp only [LLMaterialEditor.getTextureId, tinygltf.Material.textureIndex]
    rw [hIn, hTn, hIe, hTe, hIm, hTm]
    exact storedInLockstep_append _ _ _ _ _ _ _
      (storedInLockstep_append _ _ _ _ _ _ _ (storedInLockstep_append _ _ _ _ _ _ _ sa))
  · simp only [LLMaterialEditor.getTextureId, tinygltf.Material.textureIndex]
    exact sn
  · simp only [LLMaterialEditor.getTextureId, tinygltf.Material.textureIndex]
    rw [hIn, hTn, hIe, hTe]
    exact storedInLockstep_append _ _ _ _ _ _ _ (storedInLockstep_append _ _ _ _ _ _ _ sm)
  · simp only [LLMaterialEditor.getTextureId, tinygltf.Material.textureIndex]
    rw [hIn, hTn]
    exact storedInLockstep_append _ _ _ _ _ _ _ se

theorem setId_getters (env : LLEditorEnv) (me : LLMaterialEditor) (a n m e : LLUUID) :
    ((((me.setAlbedoId env a).setNormalId env n).setMetallicRoughnessId env
      m).setEmissiveId env e).getAlbedoId = a ∧
    ((((me.setAlbedoId env a).setNormalId env n).setMetallicRoughnessId env
      m).setEmissiveId env e).getNormalId = n ∧
    ((((me.setAlbedoId env a).setNormalId env n).setMetallicRoughnessId env
      m).setEmissiveId env e).getMetallicRoughnessId = m ∧
    ((((me.setAlbedoId env a).setNormalId env n).setMetallicRoughnessId env
      m).setEmissiveId env e).getEmissiveId = e := by
  refine ⟨?_, ?_, ?_, ?_⟩
  · exact setValue_getValue_asUUID _ _ _
  · exact setValue_getValue_asUUID _ _ _
  · exact setValue_getValue_asUUID _ _ _
  · exact setValue_getValue_asUUID _ _ _

theorem exampleText_round_trip (id : LLUUID) :
    exampleText.set (exampleText.asString id) = id := by
  cases id with
  | mk n =>
    show (⟨(List.replicate n (Char.ofNat 120)).length⟩ : LLUUID) = ⟨n⟩
    rw [List.length_replicate]

/-- C22: material model round trip.  For every editor state `me`, the model
`getGLTFModel` builds from a model without materials whose images and textures
have the same number (a default-constructed model in particular), fed to
`setFromGltfModel(model, set_textures = true)` of any editor, is read without
leaving `model.images`, and afterwards the four texture ids (a null id stays
null), the alpha mode and the double-sided flag are those of `me`.  The built
model has one material, as many images as textures, and every texture index
stored in the material is the index in `model.images` of the image whose uri
is the text of the slot's id (and -1 for a null id).  The id text is assumed to
parse back to the id. -/
theorem C22_gltf_model_round_trip (codec : LLUUIDText) (env : LLEditorEnv)
    (me other : LLMaterialEditor) (model : tinygltf.Model)
    (hrt : ∀ id, codec.set (codec.asString id) = id)
    (hmat : model.materials = [])
    (hlen : model.images.length = model.textures.length)
    (hsz : model.textures.length + 4 ≤ 2 ^ 31) :
    (∃ restored, other.setFromGltfModel codec env (me.getGLTFModel codec model) true =
        some (restored, true) ∧
      restored.getAlbedoId = me.getAlbedoId ∧
      restored.getNormalId = me.getNormalId ∧
      restored.getMetallicRoughnessId = me.getMetallicRoughnessId ∧
      restored.getEmissiveId = me.getEmissiveId ∧
      restored.getAlphaMode = me.getAlphaMode ∧
      restored.getDoubleSided = me.getDoubleSided) ∧
    (∃ mat, (me.getGLTFModel codec model).materials = [mat] ∧
      (me.getGLTFModel codec model).images.length =
        (me.getGLTFModel codec model).textures.length ∧
      (∀ slot, storedInLockstep codec (me.getGLTFModel codec model).images
        (me.getGLTFModel codec model).textures (me.getTextureId slot)
        (mat.textureIndex slot))) := by
  obtain ⟨mat, hm, ham, hds, hl, hs⟩ := getGLTFModel_spec codec me model hmat hlen hsz
  refine ⟨?_, mat, hm, hl, hs⟩
  have h1 := readTextureId_stored codec _ _ _ (hrt _) (hs ETextureSlot.albedo)
  have h2 := readTextureId_stored codec _ _ _ (hrt _) (hs ETextureSlot.normal)
  have h3 := readTextureId_stored codec _ _ _ (hrt _) (hs ETextureSlot.metallicRoughness)
  have h4 := readTextureId_stored codec _ _ _ (hrt _) (hs ETextureSlot.emissive)
  simp only [tinygltf.Material.textureIndex, LLMaterialEditor.getTextureId] at h1 h2 h3 h4
  unfold LLMaterialEditor.setFromGltfModel
  rw [hm]
  simp only [if_true, h1, h2, h3, h4, Option.bind_some, Option.map_some', Option.some_bind]
  obtain ⟨g1, g2, g3, g4⟩ := setId_getters env other me.getAlbedoId me.getNormalId
    me.getMetallicRoughnessId me.getEmissiveId
  exact ⟨_, rfl, g1, g2, g3, g4, ham, hds⟩

/-- Witness for C22: `exampleEditor` (albedo 7, normal 8, no metallic-roughness
and no emissive texture, alpha mode "BLEND", double sided), a
default-constructed model and the example text form of ids. -/
theorem C22_gltf_model_round_trip_witness :
    (∃ restored, exampleEditor.setFromGltfModel exampleText exampleEditorEnv
        (exampleEditor.getGLTFModel exampleText tinygltf.Model.empty) true =
        some (restored, true) ∧
      restored.getAlbedoId = exampleEditor.getAlbedoId ∧
      restored.getNormalId = exampleEditor.getNormalId ∧
      restored.getMetallicRoughnessId = exampleEditor.getMetallicRoughnessId ∧
      restored.getEmissiveId = exampleEditor.getEmissiveId ∧
      restored.getAlphaMode = exampleEditor.getAlphaMode ∧
      restored.getDoubleSided = exampleEditor.getDoubleSided) ∧
    (∃ mat, (exampleEditor.getGLTFModel exampleText tinygltf.Model.empty).materials = [mat] ∧
      (exampleEditor.getGLTFModel exampleText tinygltf.Model.empty).images.length =
        (exampleEditor.getGLTFModel exampleText tinygltf.Model.empty).textures.length ∧
      (∀ slot, storedInLockstep exampleText
        (exampleEditor.getGLTFModel exampleText tinygltf.Model.empty).images
        (exampleEditor.getGLTFModel exampleText tinygltf.Model.empty).textures
        (exampleEditor.getTextureId slot) (mat.textureIndex slot))) :=
  C22_gltf_model_round_trip exampleText exampleEditorEnv exampleEditor exampleEditor
    tinygltf.Model.empty exampleText_round_trip rfl rfl (by decide)

end LLMaterialEditorModel
